import Mathlib

/-!
# School video sharing backend: accounts, licence quotas and the video store

A shallow embedding of `src/db.js` (`createUser`, `updateUser`) and of the
routes of `src/server.js` (`POST /upload`, `POST /register`,
`DELETE /delete-account`, `DELETE /delete-video`, `GET /videos.files/:id`,
`GET /videos`, `POST /videos/view`).

The MongoDB collections `users`, `videos.files` and `videos.chunks` are lists of
documents in insertion order.  `findOne` returns the first matching document,
`updateOne` and `deleteOne` act on the first matching document, `deleteMany`
and `find` act on all of them.  A thrown `Error` is an `Except.error`; nothing
is written before any of the throws modelled here.  The database itself never
fails: the `catch` branches that answer 500 after a failed database call are
not modelled.
-/

namespace VideoShare

/-! ## Documents -/

deriving instance DecidableEq for Except

/-- A MongoDB `ObjectId`. -/
abbrev ObjectId := Nat

/-- A document of the `users` collection, with the fields written by
`POST /register` (server.js 246-254).  `videoIds` is read by
`DELETE /delete-account` (server.js 359) and written nowhere: it is `none`
when the document has no such field. -/
structure User where
  firstName : String
  email : String
  password : String
  classCodesArray : List String
  licenseKey : String
  accountType : String
  schoolName : String
  videoIds : Option (List ObjectId) := none
  deriving DecidableEq, Repr

/-- The errors thrown by `createUser` and `updateUser` (db.js). `typeError` is
the JavaScript `TypeError` raised by `validLicenseKeys[accountType].includes`
when `accountType` is not a key of `validLicenseKeys`. -/
inductive DbError where
  | emailInUse
  | invalidLicenseKey
  | limitReached
  | typeError
  | userNotFound
  | noChangesAdd
  | classCodeMissing
  | noChangesDelete
  | invalidAction
  deriving DecidableEq, Repr

/-- The message carried by each thrown `Error` (db.js 70, 75, 85, 144, 155, 160,
170, 173).  The text of the `TypeError` is the one Node gives for an
`accountType` with no property in `validLicenseKeys`, such as `admin`. -/
def DbError.message : DbError → String
  | .emailInUse => "Email already in use"
  | .invalidLicenseKey => "Invalid license key for the selected account type."
  | .limitReached => "License key limit reached. No more accounts can be registered with this key."
  | .typeError => "Cannot read properties of undefined (reading 'includes')"
  | .userNotFound => "User not found"
  | .noChangesAdd => "No changes made while adding class code"
  | .classCodeMissing => "Class code does not exist"
  | .noChangesDelete => "No changes made while deleting class code"
  | .invalidAction => "Invalid action. Use \"add\" or \"delete\"."

/-! ## Licence tables (db.js 16-31) -/

/-- The table `licenseKeyLimits` of db.js 16-23, as its list of entries. -/
def licenseKeyLimitsTable : List (String × Nat) :=
  [("BurnsideHighSchool", 4), ("MP003", 8), ("3399", 20),
   ("STUDENT_KEY_1", 10), ("TEACHER_KEY_2", 10)]

/-- The lookup `licenseKeyLimits[key]`: `none` when the table has no entry. -/
def licenseKeyLimits (key : String) : Option Nat :=
  (licenseKeyLimitsTable.find? (fun e => e.1 == key)).map (fun e => e.2)

/-- The lookup `validLicenseKeys[accountType]` of db.js 28-31: `none` when
`accountType` is neither `student` nor `teacher`. -/
def validLicenseKeys (accountType : String) : Option (List String) :=
  if accountType = "student" then some ["STUDENT_KEY_1", "STUDENT_KEY_2"]
  else if accountType = "teacher" then some ["TEACHER_KEY_1", "TEACHER_KEY_2"]
  else none

/-! ## The users collection -/

/-- The query `usersCollection.findOne({ email })`. -/
def findOne (users : List User) (email : String) : Option User :=
  users.find? (fun u => u.email == email)

/-- The query `usersCollection.countDocuments({ licenseKey })`. -/
def countDocuments (users : List User) (licenseKey : String) : Nat :=
  users.countP (fun u => u.licenseKey == licenseKey)

/-- The function `createUser(userData)` of db.js 61-104; it returns the users
collection after `insertOne(userData)`. -/
def createUser (users : List User) (userData : User) : Except DbError (List User) :=
  match findOne users userData.email with
  | some _ => .error .emailInUse
  | none =>
    match validLicenseKeys userData.accountType with
    | none => .error .typeError
    | some keys =>
      if !keys.contains userData.licenseKey then .error .invalidLicenseKey
      else
        let licenseKeyCount := countDocuments users userData.licenseKey
        let licenseKeyLimit := (licenseKeyLimits userData.licenseKey).getD 0
        if licenseKeyCount >= licenseKeyLimit then .error .limitReached
        else .ok (users ++ [userData])

/-- The users collection after one `createUser` call: a call that throws has
written nothing. -/
def afterCreateUser (users : List User) (userData : User) : List User :=
  match createUser users userData with
  | .ok users1 => users1
  | .error _ => users

/-- The users collection after a sequence of `createUser` calls, one after the other. -/
def afterCreateUsers (users : List User) (calls : List User) : List User :=
  calls.foldl afterCreateUser users

/-- The update `usersCollection.updateOne({ email }, change)`: the first
document with that email is replaced by `change` of it.  The second component
is `modifiedCount`: 1 when the document was changed, 0 otherwise. -/
def updateOne (users : List User) (email : String) (change : User → User) : List User × Nat :=
  match users with
  | [] => ([], 0)
  | u :: rest =>
    if u.email == email then (change u :: rest, if change u = u then 0 else 1)
    else ((u :: (updateOne rest email change).1), (updateOne rest email change).2)

/-- The update operator `{ $push: { classCodesArray: classCode } }`. -/
def pushClassCode (classCode : String) (u : User) : User :=
  { u with classCodesArray := u.classCodesArray ++ [classCode] }

/-- The update operator `{ $pull: { classCodesArray: classCode } }`, which removes
every element equal to `classCode`. -/
def pullClassCode (classCode : String) (u : User) : User :=
  { u with classCodesArray := u.classCodesArray.filter (fun c => c != classCode) }

/-- The function `updateUser(email, { classCode }, action)` of db.js 137-177; it
returns the users collection after the update. -/
def updateUser (users : List User) (email : String) (classCode : String) (action : String) :
    Except DbError (List User) :=
  match findOne users email with
  | none => .error .userNotFound
  | some user =>
    if action = "add" then
      let result := updateOne users email (pushClassCode classCode)
      if result.2 = 0 then .error .noChangesAdd else .ok result.1
    else if action = "delete" then
      if !user.classCodesArray.contains classCode then .error .classCodeMissing
      else
        let result := updateOne users email (pullClassCode classCode)
        if result.2 = 0 then .error .noChangesDelete else .ok result.1
    else .error .invalidAction

/-- The users collection after one `updateUser` call; a call that throws leaves
the collection as it was (the two `No changes made` throws follow an update that
modified nothing). -/
def afterUpdateUser (users : List User) (email : String) (classCode : String) (action : String) :
    List User :=
  match updateUser users email classCode action with
  | .ok users1 => users1
  | .error _ => users

/-! ## The video store (GridFS bucket `videos`) -/

/-- The `metadata` sub-document of a `videos.files` document.  `POST /upload`
(server.js 173-183) writes neither `contentType` nor `viewed`; they are read by
`GET /videos.files/:id` and written by `POST /videos/view`.  The field `userId`
(the text of the owner `_id`) is left out: no query reads it. -/
structure Metadata where
  title : String
  subject : String
  userEmail : String
  classCode : String
  accountType : String
  schoolName : String
  studentName : String
  uploadDate : Nat
  contentType : Option String := none
  viewed : Option Bool := none
  deriving DecidableEq, Repr

/-- A document of `videos.files`. -/
structure VideoFile where
  _id : ObjectId
  length : Nat
  chunkSize : Nat
  uploadDate : Nat
  filename : String
  metadata : Metadata
  deriving DecidableEq, Repr

/-- A document of `videos.chunks`: the `n`-th segment of the file `files_id`. -/
structure Chunk where
  files_id : ObjectId
  n : Nat
  data : List Nat
  deriving DecidableEq, Repr

/-- The three collections of the database. -/
structure State where
  users : List User
  files : List VideoFile
  chunks : List Chunk
  deriving DecidableEq, Repr

/-- An HTTP reply: status code and the `message` of its JSON body (for the
redirect of a successful upload, the target). -/
structure Reply where
  status : Nat
  message : String
  deriving DecidableEq, Repr

/-- The default `chunkSizeBytes` of a GridFS bucket, 255 KiB. -/
def chunkSizeBytes : Nat := 255 * 1024

/-- The multer limit `fileSize` of server.js 67, 5 GiB. -/
def fileSizeLimit : Nat := 5 * 1024 * 1024 * 1024

/-- The slicing a GridFS upload stream (MongoDB driver) does: a buffer is cut
into segments of `size` bytes, the last one shorter when the length is no
multiple of `size`; an empty buffer gives no segment. The first argument bounds
the number of segments. -/
def sliceBuffer (size : Nat) : Nat → List Nat → List (List Nat)
  | 0, _ => []
  | fuel + 1, buffer =>
    if buffer.isEmpty then [] else buffer.take size :: sliceBuffer size fuel (buffer.drop size)

/-- The chunk documents GridFS writes for `buffer` under the file id `id`. -/
def chunksOf (id : ObjectId) (buffer : List Nat) : List Chunk :=
  (sliceBuffer chunkSizeBytes buffer.length buffer).enum.map
    (fun p => { files_id := id, n := p.1, data := p.2 })

/-- The method `text.startsWith(start)` of JavaScript strings. -/
def startsWith (text start : String) : Bool :=
  text.toList.take start.length == start.toList

/-- The file of a multipart request as multer hands it over (`req.file`). -/
structure UploadedFile where
  originalname : String
  mimetype : String
  buffer : List Nat
  deriving DecidableEq, Repr

/-- The request of `POST /upload`: the file part, when there is one, and the
fields of `req.body`. -/
structure UploadRequest where
  file : Option UploadedFile
  email : String
  title : String
  subject : String
  classCode : String
  deriving DecidableEq, Repr

/-- The query of server.js 156-160: the first `videos.files` document with the
given `metadata.userEmail`, `metadata.title` and `metadata.classCode`. -/
def findExistingVideo (files : List VideoFile) (userEmail title classCode : String) :
    Option VideoFile :=
  files.find? (fun v =>
    v.metadata.userEmail == userEmail && v.metadata.title == title
      && v.metadata.classCode == classCode)

/-- The route `POST /upload` (server.js 64-78 and 118-206).  `now` is the clock
(`Date.now()`, `new Date()`) and `newId` the `ObjectId` GridFS generates for the
new file.  A file the multer filter or size limit refuses never reaches the
handler (status 500 from the default error handler). -/
def upload (s : State) (req : UploadRequest) (now : Nat) (newId : ObjectId) : Reply × State :=
  match req.file with
  | none => (⟨400, "No video file uploaded"⟩, s)
  | some file =>
    if !startsWith file.mimetype "video/" then (⟨500, "Only video files are allowed"⟩, s)
    else if file.buffer.length > fileSizeLimit then (⟨500, "File too large"⟩, s)
    else
      match findOne s.users req.email with
      | none => (⟨404, "User not found"⟩, s)
      | some user =>
        match findExistingVideo s.files user.email req.title req.classCode with
        | some _ => (⟨400, "A video with the same title and class code already exists"⟩, s)
        | none =>
          let record : VideoFile :=
            { _id := newId
              length := file.buffer.length
              chunkSize := chunkSizeBytes
              uploadDate := now
              filename := toString now ++ "_" ++ file.originalname
              metadata :=
                { title := req.title
                  subject := req.subject
                  userEmail := user.email
                  classCode := req.classCode
                  accountType := user.accountType
                  schoolName := user.schoolName
                  studentName := user.firstName
                  uploadDate := now } }
          (⟨302, "/upload-.html"⟩,
            { s with files := s.files ++ [record], chunks := s.chunks ++ chunksOf newId file.buffer })

/-- One upload of a sequence: the request with the clock and the id of that call. -/
structure UploadCall where
  req : UploadRequest
  now : Nat
  newId : ObjectId
  deriving DecidableEq, Repr

/-- The state after a sequence of uploads, one after the other. -/
def afterUploads (s : State) (calls : List UploadCall) : State :=
  calls.foldl (fun st c => (upload st c.req c.now c.newId).2) s

/-- The owner, title and class code of a video record. -/
def VideoFile.triple (v : VideoFile) : String × String × String :=
  (v.metadata.userEmail, v.metadata.title, v.metadata.classCode)

/-- The route `GET /videos` (server.js 424-482); `email` is `req.query.email`,
the empty text standing for an absent one as well. -/
def getVideos (s : State) (email : String) : Except Reply (List VideoFile) :=
  if email = "" then .error ⟨400, "Email is required"⟩
  else
    match findOne s.users email with
    | none => .error ⟨404, "User not found"⟩
    | some user =>
      if user.accountType = "teacher" then
        .ok (s.files.filter (fun v =>
          user.classCodesArray.contains v.metadata.classCode
            && v.metadata.schoolName == user.schoolName))
      else
        .ok (s.files.filter (fun v => v.metadata.userEmail == user.email))

/-- The route `DELETE /delete-account` (server.js 338-370); `email` is
`req.query.email`. -/
def deleteAccount (s : State) (email : String) : Reply × State :=
  if email = "" then (⟨400, "Email is required"⟩, s)
  else
    match findOne s.users email with
    | none => (⟨404, "User not found"⟩, s)
    | some user =>
      let files := s.files.filter (fun v => !(v.metadata.userEmail == email))
      let chunks := s.chunks.filter (fun c => !((user.videoIds.getD []).contains c.files_id))
      let users := s.users.eraseP (fun u => u.email == email)
      (⟨200, "Account deleted successfully"⟩, { users := users, files := files, chunks := chunks })

/-- The chunks of one file in ascending `n`, as the GridFS download cursor
yields them: insertion of a chunk into a list sorted by `n`. -/
def insertByN (c : Chunk) : List Chunk → List Chunk
  | [] => [c]
  | d :: rest => if c.n < d.n then c :: d :: rest else d :: insertByN c rest

/-- The chunks sorted by `n`. -/
def sortByN : List Chunk → List Chunk
  | [] => []
  | c :: rest => insertByN c (sortByN rest)

/-- The reading loop of a GridFS download stream (MongoDB driver) over the
sorted chunks of a file, as the bytes pushed and the error the stream is
destroyed with, if any.  When the cursor has no further chunk the stream ends,
also when bytes are still missing.  Otherwise the chunk must have the number
`expected` (`ChunkIsMissing` when it is larger, `ExtraChunk` when smaller) and
must hold `chunkSize` bytes, or all the remaining bytes when fewer remain
(`ChunkIsWrongSize`, or `ExtraChunk` when no byte remains); an empty chunk ends
the stream. -/
def readChunks (chunkSize : Nat) : List Chunk → Nat → Nat → List Nat × Option String
  | [], _, _ => ([], none)
  | c :: rest, expected, remaining =>
    if c.n > expected then ([], some "ChunkIsMissing")
    else if c.n < expected then ([], some "ExtraChunk")
    else if c.data.length ≠ min chunkSize remaining then
      if remaining = 0 then ([], some "ExtraChunk") else ([], some "ChunkIsWrongSize")
    else if c.data.length = 0 then ([], none)
    else
      (c.data ++ (readChunks chunkSize rest (expected + 1) (remaining - c.data.length)).1,
        (readChunks chunkSize rest (expected + 1) (remaining - c.data.length)).2)

/-- The stream `bucket.openDownloadStream(id)` read to its end: the bytes pushed
and the error, if any.  A file of length 0 ends the stream without reading a chunk. -/
def openDownloadStream (s : State) (id : ObjectId) : List Nat × Option String :=
  match s.files.find? (fun v => v._id == id) with
  | none => ([], some "FileNotFound")
  | some file =>
    if file.length = 0 then ([], none)
    else
      readChunks file.chunkSize (sortByN (s.chunks.filter (fun c => c.files_id == id))) 0
        file.length

/-- A served video: the `Content-Type` header and the bytes of the body. -/
structure Download where
  contentType : String
  body : List Nat
  deriving DecidableEq, Repr

/-- The route `GET /videos.files/:id` (server.js 376-408), for an `:id` that is
the text of the `ObjectId` `id`.  An error of the download stream before any
byte was piped is answered 404 by the handler of server.js 397-400; after the
first bytes the status 200 and the header are already sent, and the body stops
at the bytes piped so far. -/
def download (s : State) (id : ObjectId) : Except Reply Download :=
  if (s.chunks.filter (fun c => c.files_id == id)).length = 0 then
    .error ⟨404, "Video chunks not found"⟩
  else
    match s.files.find? (fun v => v._id == id) with
    | none => .error ⟨404, "Video not found"⟩
    | some videoFile =>
      let contentType :=
        match videoFile.metadata.contentType with
        | some t => if t = "" then "video/mp4" else t
        | none => "video/mp4"
      let stream := openDownloadStream s id
      match stream.2 with
      | none => .ok { contentType := contentType, body := stream.1 }
      | some _ =>
        if stream.1.isEmpty then .error ⟨404, "Video not found"⟩
        else .ok { contentType := contentType, body := stream.1 }

/-- The update `videos.files.updateOne({ _id: id }, change)`: the first record
with that `_id` is replaced by `change` of it.  The second component is
`modifiedCount`: 1 when the record was changed, 0 when no record matched or the
change left the record as it was. -/
def updateOneFile (files : List VideoFile) (id : ObjectId) (change : VideoFile → VideoFile) :
    List VideoFile × Nat :=
  match files with
  | [] => ([], 0)
  | v :: rest =>
    if v._id == id then (change v :: rest, if change v = v then 0 else 1)
    else ((v :: (updateOneFile rest id change).1), (updateOneFile rest id change).2)

/-- The update operator `{ $set: { 'metadata.viewed': true } }`. -/
def setViewed (v : VideoFile) : VideoFile :=
  { v with metadata := { v.metadata with viewed := some true } }

/-- The route `POST /videos/view` (server.js 512-538).  `videoId` is
`req.body.id`: `none` when it is absent or empty, `some id` when it is the text
of the `ObjectId` `id`. -/
def markViewed (s : State) (videoId : Option ObjectId) : Reply × State :=
  match videoId with
  | none => (⟨400, "Video ID is required"⟩, s)
  | some id =>
    let result := updateOneFile s.files id setViewed
    if result.2 = 0 then
      (⟨404, "Video not found or already viewed"⟩, { s with files := result.1 })
    else
      (⟨200, "Video marked as viewed successfully"⟩, { s with files := result.1 })

/-- The route `DELETE /delete-video` (server.js 484-510).  `videoId` is
`req.query.id`: `none` when it is absent or empty, `some id` when it is the text
of the `ObjectId` `id`.  The record is deleted first, then the chunks, and
`deletedCount` of the record is looked at last. -/
def deleteVideo (s : State) (videoId : Option ObjectId) : Reply × State :=
  match videoId with
  | none => (⟨400, "Video ID is required"⟩, s)
  | some id =>
    let deletedCount := if (s.files.find? (fun v => v._id == id)).isSome then 1 else 0
    let files := s.files.eraseP (fun v => v._id == id)
    let chunks := s.chunks.filter (fun c => !(c.files_id == id))
    if deletedCount = 0 then
      (⟨404, "Video not found"⟩, { s with files := files, chunks := chunks })
    else
      (⟨200, "Video deleted successfully"⟩, { s with files := files, chunks := chunks })

/-! ## Registration (server.js 28-29 and 216-267) -/

/-- The list `validSchoolNames` of server.js 28. -/
def validSchoolNames : List String := ["Burnside", "STAC", "School C"]

/-- The list `validLicenseKeys` of server.js 29 (the table of the same name in
db.js is `VideoShare.validLicenseKeys`). -/
def Server.validLicenseKeys : List String :=
  ["BurnsideHighSchool", "MP003", "3399", "STUDENT_KEY_1", "TEACHER_KEY_2"]

/-- The white space and line terminator characters that `trim` of JavaScript removes. -/
def isWhiteSpace (c : Char) : Bool :=
  [9, 10, 11, 12, 13, 32, 160, 5760, 8232, 8233, 8239, 8287, 12288, 65279].contains c.toNat
    || (8192 ≤ c.toNat && c.toNat ≤ 8202)

/-- The method `text.trim()` of JavaScript strings. -/
def trim (text : String) : String :=
  String.mk (((text.toList.dropWhile isWhiteSpace).reverse.dropWhile isWhiteSpace).reverse)

/-- The method `text.split(",")` of JavaScript strings (the comma is the
character 44): the pieces between the commas, one piece for a text without comma. -/
def split (text : String) : List String :=
  (text.toList.foldr
    (fun c pieces =>
      if c.toNat = 44 then [] :: pieces
      else
        match pieces with
        | [] => [[c]]
        | piece :: rest => (c :: piece) :: rest)
    [[]]).map String.mk

/-- The body of a `POST /register` request. -/
structure RegisterRequest where
  licenseKey : String
  schoolName : String
  firstName : String
  email : String
  password : String
  classCodes : String
  accountType : String
  deriving DecidableEq, Repr

/-- The route `POST /register` (server.js 216-267). `hashedPassword` is the
result of `bcrypt.hash(password, 10)`. An error thrown by `createUser` is
answered 400 with its message. -/
def register (s : State) (req : RegisterRequest) (hashedPassword : String) : Reply × State :=
  if Server.validLicenseKeys.contains req.licenseKey then
    if !validSchoolNames.contains req.schoolName then (⟨400, "Invalid school name."⟩, s)
    else
      let classCodesArray := (split req.classCodes).map trim
      match findOne s.users req.email with
      | some _ => (⟨400, "Email already in use."⟩, s)
      | none =>
        let newUser : User :=
          { firstName := req.firstName
            email := req.email
            password := hashedPassword
            classCodesArray := classCodesArray
            licenseKey := req.licenseKey
            accountType := req.accountType
            schoolName := req.schoolName }
        match createUser s.users newUser with
        | .ok users => (⟨200, "Registration successful!"⟩, { s with users := users })
        | .error e => (⟨400, e.message⟩, s)
  else (⟨400, "Invalid license key"⟩, s)

/-! ## Interleaved `createUser` calls

`createUser` awaits three database operations, `findOne` (db.js 67),
`countDocuments` (db.js 79) and `insertOne` (db.js 91).  Each operation is
atomic in the database, and the code between two of them runs without
interruption; the operations of concurrent calls interleave in any order. -/

/-- Where a `createUser` call stands: before `findOne`, after the email check,
after `countDocuments` (with the count it was given), or finished (with the
error thrown, `none` after a successful insert). -/
inductive Phase where
  | start
  | emailChecked
  | counted (licenseKeyCount : Nat)
  | finished (thrown : Option DbError)
  deriving DecidableEq, Repr

/-- A `createUser` call in progress. -/
structure Call where
  userData : User
  phase : Phase
  deriving DecidableEq, Repr

/-- The next database operation of a call, with the code of `createUser` that
follows the previous one: `findOne` and the email check (db.js 67-71), the
licence key check and `countDocuments` (db.js 74-79), the limit check and
`insertOne` (db.js 80-95). -/
def stepCall (users : List User) (call : Call) : List User × Call :=
  match call.phase with
  | .start =>
    match findOne users call.userData.email with
    | some _ => (users, { call with phase := .finished (some .emailInUse) })
    | none => (users, { call with phase := .emailChecked })
  | .emailChecked =>
    match validLicenseKeys call.userData.accountType with
    | none => (users, { call with phase := .finished (some .typeError) })
    | some keys =>
      if !keys.contains call.userData.licenseKey then
        (users, { call with phase := .finished (some .invalidLicenseKey) })
      else
        (users, { call with phase := .counted (countDocuments users call.userData.licenseKey) })
  | .counted licenseKeyCount =>
    let licenseKeyLimit := (licenseKeyLimits call.userData.licenseKey).getD 0
    if licenseKeyCount >= licenseKeyLimit then
      (users, { call with phase := .finished (some .limitReached) })
    else
      (users ++ [call.userData], { call with phase := .finished none })
  | .finished _ => (users, call)

/-- The users collection and the `createUser` calls in progress. -/
structure Interleaved where
  users : List User
  calls : List Call
  deriving DecidableEq, Repr

/-- The call number `i` performs its next database operation. -/
def stepAt (st : Interleaved) (i : Nat) : Interleaved :=
  match st.calls[i]? with
  | none => st
  | some call =>
    { users := (stepCall st.users call).1, calls := st.calls.set i (stepCall st.users call).2 }

/-- An interleaving: the calls take their steps in the order of `schedule`. -/
def runSchedule (st : Interleaved) (schedule : List Nat) : Interleaved :=
  schedule.foldl stepAt st

/-- The concurrent calls `createUser(userData)`, none of them started. -/
def spawnCalls (users : List User) (userDatas : List User) : Interleaved :=
  { users := users, calls := userDatas.map (fun u => { userData := u, phase := .start }) }

/-- The call number `i` has its count and has not yet inserted or thrown. -/
def isCounted (st : Interleaved) (i : Nat) : Bool :=
  match st.calls[i]? with
  | some call =>
    match call.phase with
    | .counted _ => true
    | _ => false
  | none => false

/-- The schedules in which the count query and the insert of a call are not
separated by a step of another call: when a step leaves the call `i` with its
count, the next step of the schedule is a step of `i`. `pending` is the call
that has to step next, if any. -/
def atomicCountInsert : Option Nat → Interleaved → List Nat → Bool
  | _, _, [] => true
  | pending, st, i :: rest =>
    (pending == none || pending == some i) &&
      atomicCountInsert (if isCounted (stepAt st i) i then some i else none) (stepAt st i) rest

/-! ## Example data -/

/-- A student account of school Burnside registered under `STUDENT_KEY_1`. -/
def student (email : String) : User :=
  { firstName := "pupil", email := email, password := "hash", classCodesArray := ["X1"],
    licenseKey := "STUDENT_KEY_1", accountType := "student", schoolName := "Burnside" }

/-- Ten student accounts, all under `STUDENT_KEY_1`. -/
def tenStudents : List User :=
  ["s01@x.com", "s02@x.com", "s03@x.com", "s04@x.com", "s05@x.com",
   "s06@x.com", "s07@x.com", "s08@x.com", "s09@x.com", "s10@x.com"].map student

/-- An eleventh student registering under `STUDENT_KEY_1`. -/
def eleventhStudent : User := student "s11@x.com"

/-- A registration that reuses the email of `student "b@x.com"` with a licence
key that is in no allowed set. -/
def reusedEmailBadKey : User :=
  { student "b@x.com" with licenseKey := "NO_SUCH_KEY" }

/-- A registration with a fresh email and a licence key that is in no allowed set. -/
def freshEmailBadKey : User :=
  { student "c@x.com" with licenseKey := "NO_SUCH_KEY" }

/-- Teacher A of school Burnside with the class code X1. -/
def teacherA : User :=
  { firstName := "ada", email := "a@x.com", password := "hash", classCodesArray := ["X1"],
    licenseKey := "TEACHER_KEY_2", accountType := "teacher", schoolName := "Burnside" }

/-- Student B of school Burnside with the class code X1. -/
def studentB : User := student "b@x.com"

/-- Student C, of another school and another class. -/
def studentC : User :=
  { student "c@x.com" with classCodesArray := ["Z9"], schoolName := "STAC" }

/-- The three accounts and an empty video store. -/
def threeAccounts : State :=
  { users := [teacherA, studentB, studentC], files := [], chunks := [] }

/-- The upload of student B: title Lab1, subject Bio, class code X1, three bytes of webm. -/
def labUpload : UploadRequest :=
  { file := some { originalname := "lab.webm", mimetype := "video/webm", buffer := [7, 8, 9] },
    email := "b@x.com", title := "Lab1", subject := "Bio", classCode := "X1" }

/-- The state after student B uploaded `labUpload` at time 1000 under the file id 1. -/
def afterLabUpload : State := (upload threeAccounts labUpload 1000 1).2

/-- The record of the video of student B. -/
def labVideo : VideoFile :=
  { _id := 1, length := 3, chunkSize := 261120, uploadDate := 1000, filename := "1000_lab.webm",
    metadata :=
      { title := "Lab1", subject := "Bio", userEmail := "b@x.com", classCode := "X1",
        accountType := "student", schoolName := "Burnside", studentName := "pupil",
        uploadDate := 1000 } }

/-- A student registering under `STUDENT_KEY_2`, a key of the allowed set of
students that has no entry in `licenseKeyLimits`. -/
def studentKey2 : User :=
  { student "k2@x.com" with licenseKey := "STUDENT_KEY_2" }

/-- A teacher registering under `TEACHER_KEY_1`, a key of the allowed set of
teachers that has no entry in `licenseKeyLimits`. -/
def teacherKey1 : User :=
  { teacherA with email := "k1@x.com", licenseKey := "TEACHER_KEY_1" }

/-- The state after the account of student B was deleted: the chunk of the
former video 1 is still in `videos.chunks`. -/
def afterAccountDeleted : State := (deleteAccount afterLabUpload "b@x.com").2

/-- The state after the video of student B was marked as viewed once. -/
def afterFirstView : State := (markViewed afterLabUpload (some 1)).2

/-- The state after the video of student B was deleted through `DELETE /delete-video`. -/
def afterLabDeleted : State := (deleteVideo afterLabUpload (some 1)).2

/-- An upload of student B with an empty file (length 0). -/
def emptyUpload : UploadRequest :=
  { file := some { originalname := "empty.webm", mimetype := "video/webm", buffer := [] },
    email := "b@x.com", title := "Empty", subject := "Bio", classCode := "X1" }

/-- A registration of a student of school Burnside under `STUDENT_KEY_1`. -/
def studentRegistration : RegisterRequest :=
  { licenseKey := "STUDENT_KEY_1", schoolName := "Burnside", firstName := "dan",
    email := "d@x.com", password := "secret", classCodes := "X1, Y2", accountType := "student" }

/-- Nine student accounts under `STUDENT_KEY_1`, one below the limit of 10. -/
def nineStudents : List User := tenStudents.drop 1

/-- Two students registering under `STUDENT_KEY_1` at the same time. -/
def twoRegistrations : List User := [student "s11@x.com", student "s12@x.com"]

/-! ## Facts about `createUser` -/

/-- What a successful `createUser` call has checked and written. -/
theorem createUser_ok_iff (users users1 : List User) (userData : User) :
    createUser users userData = .ok users1 ↔
      findOne users userData.email = none ∧
      (∃ keys, validLicenseKeys userData.accountType = some keys ∧ userData.licenseKey ∈ keys) ∧
      countDocuments users userData.licenseKey < (licenseKeyLimits userData.licenseKey).getD 0 ∧
      users1 = users ++ [userData] := by
  unfold createUser
  cases hf : findOne users userData.email with
  | some u => simp
  | none =>
    cases hv : validLicenseKeys userData.accountType with
    | none => simp
    | some keys =>
      by_cases hk : userData.licenseKey ∈ keys
      · by_cases hc : countDocuments users userData.licenseKey
            < (licenseKeyLimits userData.licenseKey).getD 0
        · simp [hk, hc, Nat.not_le.mpr hc, eq_comm]
        · simp [hk, hc, Nat.not_lt.mp hc]
      · simp [hk]

/-- A `createUser` call either leaves the collection as it is or appends `userData`. -/
theorem afterCreateUser_cases (users : List User) (userData : User) :
    afterCreateUser users userData = users ∨
      (createUser users userData = .ok (users ++ [userData]) ∧
        afterCreateUser users userData = users ++ [userData]) := by
  unfold afterCreateUser
  cases h : createUser users userData with
  | error e => exact Or.inl rfl
  | ok users1 =>
    have h1 := ((createUser_ok_iff users users1 userData).mp h).2.2.2
    subst h1
    exact Or.inr ⟨rfl, rfl⟩

/-- One `createUser` call keeps the number of accounts of a key within its limit. -/
theorem afterCreateUser_count_le (L : String) (N : Nat) (hL : licenseKeyLimits L = some N)
    (users : List User) (userData : User) (h : countDocuments users L ≤ N) :
    countDocuments (afterCreateUser users userData) L ≤ N := by
  rcases afterCreateUser_cases users userData with h1 | ⟨hok, h1⟩
  · rw [h1]; exact h
  · rw [h1]
    have hlt := ((createUser_ok_iff users _ userData).mp hok).2.2.1
    unfold countDocuments at *
    rw [List.countP_append]
    by_cases hk : userData.licenseKey = L
    · subst hk
      rw [hL] at hlt
      simp at hlt ⊢
      omega
    · simp [hk]
      exact h

/-- One `createUser` call keeps the emails of the collection pairwise distinct. -/
theorem afterCreateUser_nodup (users : List User) (userData : User)
    (h : (users.map (fun u => u.email)).Nodup) :
    ((afterCreateUser users userData).map (fun u => u.email)).Nodup := by
  rcases afterCreateUser_cases users userData with h1 | ⟨hok, h1⟩
  · rw [h1]; exact h
  · rw [h1]
    have hnone := ((createUser_ok_iff users _ userData).mp hok).1
    unfold findOne at hnone
    rw [List.find?_eq_none] at hnone
    rw [List.map_append, List.nodup_append]
    refine ⟨h, by simp, ?_⟩
    intro a ha hb
    simp at hb
    subst hb
    rw [List.mem_map] at ha
    obtain ⟨u, hu, hue⟩ := ha
    exact hnone u hu (by simp [hue])

/-! ## Claims on `createUser` -/

/-- C1. Quota ceiling of `createUser`, run sequentially: for a licence key `L`
with limit `N` in `licenseKeyLimits` and a users collection with at most `N`
accounts of key `L`, after any finite sequence of `createUser` calls the number
of accounts of key `L` is still at most `N`; and a call with key `L`, a fresh
email and a key valid for the account type, made while exactly `N` accounts use
`L`, throws `License key limit reached` and inserts nothing. -/
theorem createUser_quota_ceiling (L : String) (N : Nat) (users : List User)
    (hL : licenseKeyLimits L = some N) (hN : countDocuments users L ≤ N) :
    (∀ calls : List User, countDocuments (afterCreateUsers users calls) L ≤ N) ∧
    (∀ userData : User, userData.licenseKey = L → countDocuments users L = N →
      findOne users userData.email = none →
      (∃ keys, validLicenseKeys userData.accountType = some keys ∧ L ∈ keys) →
      createUser users userData = .error .limitReached ∧
        afterCreateUser users userData = users) := by
  constructor
  · intro calls
    unfold afterCreateUsers
    induction calls generalizing users with
    | nil => exact hN
    | cons c rest ih =>
      rw [List.foldl_cons]
      exact ih _ (afterCreateUser_count_le L N hL users c hN)
  · intro userData hk hc hf ⟨keys, hv, hmem⟩
    have herr : createUser users userData = .error .limitReached := by
      unfold createUser
      rw [hf]
      simp only [hv, hk]
      simp [hmem, hL, hc]
    exact ⟨herr, by unfold afterCreateUser; rw [herr]⟩

/-- Witness of C1: with ten accounts under `STUDENT_KEY_1` (limit 10), the
eleventh student registration throws `License key limit reached`. -/
theorem createUser_quota_ceiling_witness :
    licenseKeyLimits "STUDENT_KEY_1" = some 10 ∧
    countDocuments tenStudents "STUDENT_KEY_1" ≤ 10 ∧
    countDocuments (afterCreateUsers tenStudents [eleventhStudent]) "STUDENT_KEY_1" ≤ 10 ∧
    createUser tenStudents eleventhStudent = .error .limitReached ∧
    afterCreateUser tenStudents eleventhStudent = tenStudents :=
  have h := createUser_quota_ceiling "STUDENT_KEY_1" 10 tenStudents (by decide) (by decide)
  ⟨by decide, by decide, h.1 [eleventhStudent],
    h.2 eleventhStudent rfl (by decide) (by decide)
      ⟨["STUDENT_KEY_1", "STUDENT_KEY_2"], by decide, by decide⟩⟩

/-- C2, counterexample. With the account `b@x.com` registered, a registration
that reuses this email with a licence key outside the allowed set of its account
type throws `Email already in use`, not `Invalid license key`. -/
theorem createUser_license_first_counterexample :
    validLicenseKeys reusedEmailBadKey.accountType = some ["STUDENT_KEY_1", "STUDENT_KEY_2"] ∧
    reusedEmailBadKey.licenseKey ∉ ["STUDENT_KEY_1", "STUDENT_KEY_2"] ∧
    findOne [student "b@x.com"] reusedEmailBadKey.email = some (student "b@x.com") ∧
    createUser [student "b@x.com"] reusedEmailBadKey = .error .emailInUse ∧
    createUser [student "b@x.com"] reusedEmailBadKey ≠ .error .invalidLicenseKey := by
  decide

/-- C2, amended. `createUser` validates the email first, then the licence key,
then the quota: a `userData` whose email already exists in the collection throws
`Email already in use`, whatever its licence key; a `userData` with a fresh email
whose licence key is not in the allowed set of its account type throws
`Invalid license key for the selected account type.`, whatever the count of that
key. Neither call inserts anything. -/
theorem createUser_email_then_license (users : List User) (userData : User) :
    ((∃ u, findOne users userData.email = some u) →
      createUser users userData = .error .emailInUse ∧
        afterCreateUser users userData = users) ∧
    (findOne users userData.email = none →
      ∀ keys, validLicenseKeys userData.accountType = some keys →
        userData.licenseKey ∉ keys →
        createUser users userData = .error .invalidLicenseKey ∧
          afterCreateUser users userData = users) := by
  constructor
  · rintro ⟨u, hu⟩
    have herr : createUser users userData = .error .emailInUse := by
      unfold createUser; rw [hu]
    exact ⟨herr, by unfold afterCreateUser; rw [herr]⟩
  · intro hf keys hv hk
    have herr : createUser users userData = .error .invalidLicenseKey := by
      unfold createUser; rw [hf]; simp [hv, hk]
    exact ⟨herr, by unfold afterCreateUser; rw [herr]⟩

/-- Witness of C2 amended: the reused email throws `Email already in use`, the
fresh email with the same bad key throws `Invalid license key`. -/
theorem createUser_email_then_license_witness :
    (findOne [student "b@x.com"] reusedEmailBadKey.email = some (student "b@x.com") ∧
      createUser [student "b@x.com"] reusedEmailBadKey = .error .emailInUse ∧
      afterCreateUser [student "b@x.com"] reusedEmailBadKey = [student "b@x.com"]) ∧
    (findOne [student "b@x.com"] freshEmailBadKey.email = none ∧
      freshEmailBadKey.licenseKey ∉ ["STUDENT_KEY_1", "STUDENT_KEY_2"] ∧
      createUser [student "b@x.com"] freshEmailBadKey = .error .invalidLicenseKey ∧
      afterCreateUser [student "b@x.com"] freshEmailBadKey = [student "b@x.com"]) :=
  ⟨⟨by decide,
      (createUser_email_then_license [student "b@x.com"] reusedEmailBadKey).1
        ⟨student "b@x.com", by decide⟩⟩,
    ⟨by decide, by decide,
      (createUser_email_then_license [student "b@x.com"] freshEmailBadKey).2
        (by decide) ["STUDENT_KEY_1", "STUDENT_KEY_2"] (by decide) (by decide)⟩⟩

/-- C3. Email uniqueness is an invariant of account creation: from a users
collection in which no two accounts share an email, any finite sequence of
`createUser` calls leads to a collection in which no two accounts share an email;
and a call whose email equals that of an existing account throws
`Email already in use` and leaves the collection unchanged. -/
theorem createUser_email_unique (users : List User)
    (h : (users.map (fun u => u.email)).Nodup) :
    (∀ calls : List User, ((afterCreateUsers users calls).map (fun u => u.email)).Nodup) ∧
    (∀ userData : User, (∃ u ∈ users, u.email = userData.email) →
      createUser users userData = .error .emailInUse ∧
        afterCreateUser users userData = users) := by
  constructor
  · intro calls
    unfold afterCreateUsers
    induction calls generalizing users with
    | nil => exact h
    | cons c rest ih =>
      rw [List.foldl_cons]
      exact ih _ (afterCreateUser_nodup users c h)
  · rintro userData ⟨u, hu, hue⟩
    have hsome : (findOne users userData.email).isSome = true := by
      unfold findOne
      rw [List.find?_isSome]
      exact ⟨u, hu, by simp [hue]⟩
    obtain ⟨w, hw⟩ := Option.isSome_iff_exists.mp hsome
    have herr : createUser users userData = .error .emailInUse := by
      unfold createUser; rw [hw]
    exact ⟨herr, by unfold afterCreateUser; rw [herr]⟩

/-- Witness of C3: after `b@x.com`, a second registration of `b@x.com` and one of
`s11@x.com`, the emails are still pairwise distinct; the repeated one throws. -/
theorem createUser_email_unique_witness :
    ([student "b@x.com"].map (fun u => u.email)).Nodup ∧
    ((afterCreateUsers [student "b@x.com"] [student "b@x.com", eleventhStudent]).map
      (fun u => u.email)).Nodup ∧
    createUser [student "b@x.com"] (student "b@x.com") = .error .emailInUse ∧
    afterCreateUser [student "b@x.com"] (student "b@x.com") = [student "b@x.com"] :=
  have h := createUser_email_unique [student "b@x.com"] (by decide)
  ⟨by decide, h.1 [student "b@x.com", eleventhStudent],
    h.2 (student "b@x.com") ⟨student "b@x.com", by decide, rfl⟩⟩

/-! ## Facts about the users collection and the video store -/

/-- The account `findOne` returns has the email asked for and is in the collection. -/
theorem findOne_some (users : List User) (email : String) (user : User)
    (h : findOne users email = some user) : user.email = email ∧ user ∈ users := by
  unfold findOne at h
  have h1 := List.find?_some h
  have h2 := List.mem_of_find?_eq_some h
  exact ⟨by simpa using h1, h2⟩

/-- The duplicate query finds nothing exactly when no record has the triple. -/
theorem findExistingVideo_eq_none (files : List VideoFile) (userEmail title classCode : String) :
    findExistingVideo files userEmail title classCode = none ↔
      (userEmail, title, classCode) ∉ files.map VideoFile.triple := by
  unfold findExistingVideo
  rw [List.find?_eq_none, List.mem_map]
  constructor
  · rintro h ⟨v, hv, ht⟩
    apply h v hv
    simp only [VideoFile.triple, Prod.mk.injEq] at ht
    simp [ht.1, ht.2.1, ht.2.2]
  · intro h v hv hm
    apply h
    refine ⟨v, hv, ?_⟩
    simp only [Bool.and_eq_true, beq_iff_eq] at hm
    simp [VideoFile.triple, hm.1.1, hm.1.2, hm.2]

/-- The duplicate query finds a record when some record has the triple. -/
theorem findExistingVideo_of_mem (files : List VideoFile) (userEmail title classCode : String)
    (h : ∃ v ∈ files, v.triple = (userEmail, title, classCode)) :
    ∃ w, findExistingVideo files userEmail title classCode = some w := by
  obtain ⟨v, hv, ht⟩ := h
  cases he : findExistingVideo files userEmail title classCode with
  | some w => exact ⟨w, rfl⟩
  | none =>
    exact absurd (List.mem_map.mpr ⟨v, hv, ht⟩) ((findExistingVideo_eq_none _ _ _ _).mp he)

/-- An upload either changes nothing or adds one record whose triple no record had. -/
theorem upload_cases (s : State) (req : UploadRequest) (now : Nat) (newId : ObjectId) :
    (upload s req now newId).2 = s ∨
      ∃ record : VideoFile, ∃ file : UploadedFile,
        record.triple ∉ s.files.map VideoFile.triple ∧
        record._id = newId ∧
        (upload s req now newId).2 =
          { s with files := s.files ++ [record], chunks := s.chunks ++ chunksOf newId file.buffer } := by
  unfold upload
  cases hfile : req.file with
  | none => exact Or.inl rfl
  | some file =>
    by_cases hm : startsWith file.mimetype "video/" = true
    · by_cases hl : file.buffer.length > fileSizeLimit
      · simp [hm, hl]
      · cases hu : findOne s.users req.email with
        | none => simp [hm, hl]
        | some user =>
          cases he : findExistingVideo s.files user.email req.title req.classCode with
          | some v => simp [hm, hl, he]
          | none =>
            right
            simp only [hm, hl, he]
            refine ⟨_, file, ?_, ?_, by simp; rfl⟩
            · exact (findExistingVideo_eq_none _ _ _ _).mp he
            · rfl
    · simp [hm]

/-- One upload keeps the triples of the video records pairwise distinct. -/
theorem upload_triples_nodup (s : State) (req : UploadRequest) (now : Nat) (newId : ObjectId)
    (h : (s.files.map VideoFile.triple).Nodup) :
    ((upload s req now newId).2.files.map VideoFile.triple).Nodup := by
  rcases upload_cases s req now newId with h1 | ⟨record, file, hnew, _, h1⟩
  · rw [h1]; exact h
  · rw [h1]
    simp only [List.map_append, List.map_cons, List.map_nil]
    rw [List.nodup_append]
    refine ⟨h, by simp, ?_⟩
    intro a ha hb
    simp at hb
    subst hb
    exact hnew ha

/-! ## Claims on listing and upload -/

/-- C4. Role-scoped listing of `GET /videos`: for a requester email that resolves
to an account, a teacher is returned exactly the records whose class code is in
the classCodes of the teacher and whose school name is that of the teacher, a
student exactly the records whose owner email is the email of the student; no
record outside `videos.files` or outside that scope is ever returned. -/
theorem getVideos_role_scoped (s : State) (email : String) (user : User)
    (hEmail : email ≠ "") (hUser : findOne s.users email = some user) :
    (user.accountType = "teacher" →
      getVideos s email = .ok (s.files.filter (fun v =>
        decide (v.metadata.classCode ∈ user.classCodesArray
          ∧ v.metadata.schoolName = user.schoolName)))) ∧
    (user.accountType = "student" →
      getVideos s email = .ok (s.files.filter (fun v =>
        decide (v.metadata.userEmail = email)))) ∧
    (∀ videos, getVideos s email = .ok videos → ∀ v ∈ videos,
      v ∈ s.files ∧
      (user.accountType = "teacher" →
        v.metadata.classCode ∈ user.classCodesArray
          ∧ v.metadata.schoolName = user.schoolName) ∧
      (user.accountType = "student" → v.metadata.userEmail = email)) := by
  have hue := (findOne_some _ _ _ hUser).1
  refine ⟨?_, ?_, ?_⟩
  · intro ht
    unfold getVideos
    rw [if_neg hEmail, hUser]
    simp only [ht, if_true]
    congr 1
    apply List.filter_congr
    intro v _
    by_cases h : v.metadata.schoolName = user.schoolName <;> simp [h]
  · intro hs
    unfold getVideos
    rw [if_neg hEmail, hUser]
    have hnt : user.accountType ≠ "teacher" := by rw [hs]; decide
    simp only [hnt, if_false]
    congr 1
    apply List.filter_congr
    intro v _
    rw [hue]
    by_cases h : v.metadata.userEmail = email <;> simp [h]
  · intro videos hv v hmem
    unfold getVideos at hv
    rw [if_neg hEmail, hUser] at hv
    by_cases ht : user.accountType = "teacher"
    · simp only [ht, if_true, Except.ok.injEq] at hv
      subst hv
      rw [List.mem_filter] at hmem
      refine ⟨hmem.1, fun _ => by simpa using hmem.2, ?_⟩
      intro hs
      rw [ht] at hs
      exact absurd hs (by decide)
    · simp only [ht, if_false, Except.ok.injEq] at hv
      subst hv
      rw [List.mem_filter] at hmem
      refine ⟨hmem.1, fun h => absurd h ht, fun _ => ?_⟩
      have := hmem.2
      simp at this
      rw [this, hue]

/-- Witness of C4: teacher A (Burnside, X1) is returned the video of student B
tagged X1 and Burnside; the unrelated student C is returned the empty list. -/
theorem getVideos_role_scoped_witness :
    ("a@x.com" ≠ "" ∧ findOne afterLabUpload.users "a@x.com" = some teacherA) ∧
    getVideos afterLabUpload "a@x.com" = .ok (afterLabUpload.files.filter (fun v =>
        decide (v.metadata.classCode ∈ teacherA.classCodesArray
          ∧ v.metadata.schoolName = teacherA.schoolName))) ∧
    getVideos afterLabUpload "a@x.com" = .ok [labVideo] ∧
    getVideos afterLabUpload "c@x.com" = .ok [] :=
  ⟨⟨by decide, by decide⟩,
    (getVideos_role_scoped afterLabUpload "a@x.com" teacherA (by decide) (by decide)).1
      (by decide),
    by decide, by decide⟩

/-- C5. Duplicate-upload prevention of `POST /upload`: in a state whose video
records have pairwise distinct triples (owner email, title, class code), an
upload by an existing account whose triple equals that of an existing record is
answered 400 `A video with the same title and class code already exists` and
creates no record and no chunk (the state is unchanged); whatever the request,
an upload whose email, title and class code are those of an existing record
changes nothing and is not answered with the redirect of a success; and the
triples stay pairwise distinct after any finite sequence of uploads. -/
theorem upload_duplicate_rejected (s : State)
    (hUnique : (s.files.map VideoFile.triple).Nodup) :
    (∀ (req : UploadRequest) (now : Nat) (newId : ObjectId) (file : UploadedFile) (user : User),
      req.file = some file → startsWith file.mimetype "video/" = true →
      file.buffer.length ≤ fileSizeLimit → findOne s.users req.email = some user →
      (∃ v ∈ s.files, v.triple = (user.email, req.title, req.classCode)) →
      upload s req now newId =
        (⟨400, "A video with the same title and class code already exists"⟩, s)) ∧
    (∀ (req : UploadRequest) (now : Nat) (newId : ObjectId),
      (∃ v ∈ s.files, v.triple = (req.email, req.title, req.classCode)) →
      (upload s req now newId).2 = s ∧ (upload s req now newId).1.status ≠ 302) ∧
    (∀ calls : List UploadCall, ((afterUploads s calls).files.map VideoFile.triple).Nodup) := by
  have hfound := findExistingVideo_of_mem s.files
  refine ⟨?_, ?_, ?_⟩
  · intro req now newId file user hfile hm hl hu hex
    obtain ⟨w, hw⟩ := hfound _ _ _ hex
    unfold upload
    simp [hfile, hm, Nat.not_lt.mpr hl, hu, hw]
  · intro req now newId hex
    unfold upload
    cases hfile : req.file with
    | none => simp
    | some file =>
      by_cases hm : startsWith file.mimetype "video/" = true
      · by_cases hl : file.buffer.length > fileSizeLimit
        · simp [hm, hl]
        · cases hu : findOne s.users req.email with
          | none => simp [hm, hl]
          | some user =>
            have hue := (findOne_some _ _ _ hu).1
            rw [← hue] at hex
            obtain ⟨w, hw⟩ := hfound _ _ _ hex
            simp [hm, hl, hw]
      · simp [hm]
  · intro calls
    clear hfound
    unfold afterUploads
    induction calls generalizing s with
    | nil => exact hUnique
    | cons c rest ih =>
      rw [List.foldl_cons]
      exact ih _ (upload_triples_nodup s c.req c.now c.newId hUnique)

/-- Witness of C5: after the upload of Lab1 for class X1 by `b@x.com`, the same
upload again is answered 400 and changes nothing; after two more attempts the
triples are still pairwise distinct. -/
theorem upload_duplicate_rejected_witness :
    (afterLabUpload.files.map VideoFile.triple).Nodup ∧
    upload afterLabUpload labUpload 2000 2 =
      (⟨400, "A video with the same title and class code already exists"⟩, afterLabUpload) ∧
    ((upload afterLabUpload labUpload 2000 2).2 = afterLabUpload ∧
      (upload afterLabUpload labUpload 2000 2).1.status ≠ 302) ∧
    ((afterUploads afterLabUpload [⟨labUpload, 2000, 2⟩, ⟨labUpload, 3000, 3⟩]).files.map
      VideoFile.triple).Nodup :=
  have h := upload_duplicate_rejected afterLabUpload (by decide)
  ⟨by decide,
    h.1 labUpload 2000 2 { originalname := "lab.webm", mimetype := "video/webm", buffer := [7, 8, 9] }
      studentB rfl (by decide) (by decide) (by decide) ⟨labVideo, by decide, by decide⟩,
    h.2.1 labUpload 2000 2 ⟨labVideo, by decide, by decide⟩,
    h.2.2 [⟨labUpload, 2000, 2⟩, ⟨labUpload, 3000, 3⟩]⟩

/-! ## Facts about `updateUser` -/

/-- The effect of `updateOne` on a collection in which `findOne` resolves. -/
theorem updateOne_of_findOne (users : List User) (email : String) (change : User → User)
    (user : User) (h : findOne users email = some user) :
    (updateOne users email change).2 = (if change user = user then 0 else 1) ∧
    ((change user).email = email →
      findOne (updateOne users email change).1 email = some (change user)) ∧
    (updateOne users email change).1.length = users.length := by
  induction users with
  | nil => simp [findOne] at h
  | cons u rest ih =>
    unfold findOne at h
    rw [List.find?_cons] at h
    by_cases hu : u.email = email
    · simp [hu] at h
      subst h
      refine ⟨by simp [updateOne, hu], ?_, by simp [updateOne, hu]⟩
      intro hc
      simp [updateOne, hu, findOne, hc]
    · have hb : (u.email == email) = false := by simp [hu]
      rw [hb] at h
      have ih1 := ih (by unfold findOne; exact h)
      refine ⟨by simp [updateOne, hu, ih1.1], ?_, by simp [updateOne, hu, ih1.2.2]⟩
      intro hc
      have h2 := ih1.2.1 hc
      unfold findOne at h2 ⊢
      simp only [updateOne, hb, Bool.false_eq_true, if_false]
      rw [List.find?_cons, hb]
      exact h2

/-- An update that changes no document leaves the collection as it is. -/
theorem updateOne_unchanged (users : List User) (email : String) (change : User → User)
    (h : (updateOne users email change).2 = 0) : (updateOne users email change).1 = users := by
  induction users with
  | nil => rfl
  | cons u rest ih =>
    by_cases hu : u.email = email
    · simp only [updateOne, hu, beq_self_eq_true, if_true] at h ⊢
      by_cases hc : change u = u
      · rw [hc]
      · simp [hc] at h
    · simp only [updateOne, hu, beq_iff_eq, if_false] at h ⊢
      rw [ih h]

/-- Adding a class code to an account that exists succeeds and appends the code
to the array of the first account with that email. -/
theorem updateUser_add_ok (users : List User) (email c : String) (user : User)
    (h : findOne users email = some user) :
    updateUser users email c "add" = .ok (updateOne users email (pushClassCode c)).1 ∧
    afterUpdateUser users email c "add" = (updateOne users email (pushClassCode c)).1 ∧
    findOne (updateOne users email (pushClassCode c)).1 email = some (pushClassCode c user) := by
  have hne : pushClassCode c user ≠ user := by
    intro hc
    have hl := congrArg (fun u => u.classCodesArray.length) hc
    simp [pushClassCode] at hl
  have hup := updateOne_of_findOne users email (pushClassCode c) user h
  have hmail : (pushClassCode c user).email = email := (findOne_some _ _ _ h).1
  have hok : updateUser users email c "add" = .ok (updateOne users email (pushClassCode c)).1 := by
    unfold updateUser
    rw [h]
    simp [hup.1, hne]
  exact ⟨hok, by unfold afterUpdateUser; rw [hok], hup.2.1 hmail⟩

/-! ## Claims on `updateUser` and on unknown licence keys -/

/-- C6, counterexample. For the account `b@x.com` with the class codes `[X1]`,
adding `C1` twice leaves `[X1, C1, C1]`: the code occurs twice, and the state
after the second call differs from the state after the first. -/
theorem updateUser_add_idempotent_counterexample :
    updateUser [studentB] "b@x.com" "C1" "add"
      = .ok [{ studentB with classCodesArray := ["X1", "C1"] }] ∧
    updateUser [{ studentB with classCodesArray := ["X1", "C1"] }] "b@x.com" "C1" "add"
      = .ok [{ studentB with classCodesArray := ["X1", "C1", "C1"] }] ∧
    List.count "C1" ["X1", "C1", "C1"] = 2 ∧
    afterUpdateUser (afterUpdateUser [studentB] "b@x.com" "C1" "add") "b@x.com" "C1" "add"
      ≠ afterUpdateUser [studentB] "b@x.com" "C1" "add" := by
  decide

/-- C6, amended. `updateUser(email, {classCode: c}, add)` appends `c` to the
classCodesArray of the account on every call: for an existing account both of
two successive calls succeed, the array is the former one followed by `c` after
the first call and followed by `c, c` after the second, so `c` occurs two times
more than before and the state after the second call differs from the state
after the first. -/
theorem updateUser_add_appends (users : List User) (email c : String) (user : User)
    (h : findOne users email = some user) :
    updateUser users email c "add" = .ok (afterUpdateUser users email c "add") ∧
    updateUser (afterUpdateUser users email c "add") email c "add"
      = .ok (afterUpdateUser (afterUpdateUser users email c "add") email c "add") ∧
    (findOne (afterUpdateUser users email c "add") email).map (fun u => u.classCodesArray)
      = some (user.classCodesArray ++ [c]) ∧
    (findOne (afterUpdateUser (afterUpdateUser users email c "add") email c "add") email).map
        (fun u => u.classCodesArray)
      = some (user.classCodesArray ++ [c, c]) ∧
    (user.classCodesArray ++ [c, c]).count c = user.classCodesArray.count c + 2 ∧
    afterUpdateUser (afterUpdateUser users email c "add") email c "add"
      ≠ afterUpdateUser users email c "add" := by
  have h1 := updateUser_add_ok users email c user h
  have h2 := updateUser_add_ok _ email c _ h1.2.2
  rw [← h1.2.1] at h2
  have hf1 := h1.2.2
  rw [← h1.2.1] at hf1
  have hf2 := h2.2.2
  rw [← h2.2.1] at hf2
  refine ⟨by rw [h1.2.1]; exact h1.1, by rw [h2.2.1]; exact h2.1, ?_, ?_, ?_, ?_⟩
  · rw [hf1]; rfl
  · rw [hf2]; simp [pushClassCode]
  · simp [List.count_append]
  · intro heq
    rw [heq, hf1] at hf2
    have hl := congrArg (fun o => o.map (fun u => u.classCodesArray.length)) hf2
    simp [pushClassCode] at hl

/-- Witness of C6 amended: two additions of `C1` to `b@x.com`. -/
theorem updateUser_add_appends_witness :
    findOne [studentB] "b@x.com" = some studentB ∧
    (findOne (afterUpdateUser (afterUpdateUser [studentB] "b@x.com" "C1" "add")
        "b@x.com" "C1" "add") "b@x.com").map (fun u => u.classCodesArray)
      = some (studentB.classCodesArray ++ ["C1", "C1"]) :=
  ⟨by decide, (updateUser_add_appends [studentB] "b@x.com" "C1" studentB (by decide)).2.2.2.1⟩

/-- C7. Removing a class code that is not a member: for an existing account and a
class code `c` that is not in its classCodesArray,
`updateUser(email, {classCode: c}, delete)` throws `Class code does not exist`
and leaves the whole users collection, the array of the account included,
unchanged. -/
theorem updateUser_delete_non_member (users : List User) (email c : String) (user : User)
    (h : findOne users email = some user) (hc : c ∉ user.classCodesArray) :
    updateUser users email c "delete" = .error .classCodeMissing ∧
    DbError.message .classCodeMissing = "Class code does not exist" ∧
    afterUpdateUser users email c "delete" = users ∧
    findOne (afterUpdateUser users email c "delete") email = some user := by
  have herr : updateUser users email c "delete" = .error .classCodeMissing := by
    unfold updateUser
    rw [h]
    have hne : ¬ ("delete" = "add") := by decide
    simp [hne, hc]
  have hafter : afterUpdateUser users email c "delete" = users := by
    unfold afterUpdateUser; rw [herr]
  exact ⟨herr, rfl, hafter, by rw [hafter]; exact h⟩

/-- Witness of C7: `b@x.com` holds `[X1]`; removing `C1` throws and changes nothing. -/
theorem updateUser_delete_non_member_witness :
    (findOne [teacherA, studentB] "b@x.com" = some studentB ∧ "C1" ∉ studentB.classCodesArray) ∧
    updateUser [teacherA, studentB] "b@x.com" "C1" "delete" = .error .classCodeMissing ∧
    DbError.message .classCodeMissing = "Class code does not exist" ∧
    afterUpdateUser [teacherA, studentB] "b@x.com" "C1" "delete" = [teacherA, studentB] ∧
    findOne (afterUpdateUser [teacherA, studentB] "b@x.com" "C1" "delete") "b@x.com"
      = some studentB :=
  ⟨⟨by decide, by decide⟩,
    updateUser_delete_non_member [teacherA, studentB] "b@x.com" "C1" studentB
      (by decide) (by decide)⟩

/-- C8. An unknown licence key means a limit of 0: for a licence key with no
entry in `licenseKeyLimits` and any users collection, the empty one included,
`createUser` with that key never inserts an account; with a fresh email and the
key in the allowed set of the account type (as `STUDENT_KEY_2` for a student
and `TEACHER_KEY_1` for a teacher are) it throws `License key limit reached`. -/
theorem createUser_unknown_key (key : String) (users : List User) (userData : User)
    (hNo : licenseKeyLimits key = none) (hKey : userData.licenseKey = key) :
    (∀ users1, createUser users userData ≠ .ok users1) ∧
    afterCreateUser users userData = users ∧
    (findOne users userData.email = none →
      (∃ keys, validLicenseKeys userData.accountType = some keys ∧ key ∈ keys) →
      createUser users userData = .error .limitReached) := by
  have hnot : ∀ users1, createUser users userData ≠ .ok users1 := by
    intro users1 hok
    have hlt := ((createUser_ok_iff users users1 userData).mp hok).2.2.1
    rw [hKey, hNo] at hlt
    simp at hlt
  refine ⟨hnot, ?_, ?_⟩
  · rcases afterCreateUser_cases users userData with h1 | ⟨hok, _⟩
    · exact h1
    · exact absurd hok (hnot _)
  · rintro hf ⟨keys, hv, hmem⟩
    unfold createUser
    rw [hf]
    simp only [hv, hKey]
    simp [hmem, hNo]

/-- Witness of C8: on the empty users collection a student under `STUDENT_KEY_2`
and a teacher under `TEACHER_KEY_1` are both refused with
`License key limit reached`. -/
theorem createUser_unknown_key_witness :
    (licenseKeyLimits "STUDENT_KEY_2" = none ∧ licenseKeyLimits "TEACHER_KEY_1" = none) ∧
    (afterCreateUser [] studentKey2 = [] ∧
      createUser [] studentKey2 = .error .limitReached ∧
      DbError.message .limitReached
        = "License key limit reached. No more accounts can be registered with this key.") ∧
    (afterCreateUser tenStudents teacherKey1 = tenStudents ∧
      createUser tenStudents teacherKey1 = .error .limitReached) :=
  have hs := createUser_unknown_key "STUDENT_KEY_2" [] studentKey2 (by decide) rfl
  have ht := createUser_unknown_key "TEACHER_KEY_1" tenStudents teacherKey1 (by decide) rfl
  ⟨⟨by decide, by decide⟩,
    ⟨hs.2.1, hs.2.2 (by decide) ⟨["STUDENT_KEY_1", "STUDENT_KEY_2"], by decide, by decide⟩, rfl⟩,
    ⟨ht.2.1, ht.2.2 (by decide) ⟨["TEACHER_KEY_1", "TEACHER_KEY_2"], by decide, by decide⟩⟩⟩

/-! ## Account deletion -/

/-- What `DELETE /delete-account` does for an email that resolves to an account. -/
theorem deleteAccount_of_findOne (s : State) (email : String) (user : User)
    (hEmail : email ≠ "") (hUser : findOne s.users email = some user) :
    deleteAccount s email =
      (⟨200, "Account deleted successfully"⟩,
        { users := s.users.eraseP (fun u => u.email == email)
          files := s.files.filter (fun v => !(v.metadata.userEmail == email))
          chunks := s.chunks.filter (fun c => !((user.videoIds.getD []).contains c.files_id)) }) := by
  unfold deleteAccount
  rw [if_neg hEmail, hUser]

/-- In a collection with pairwise distinct emails, removing the first account
with an email removes every account with that email. -/
theorem eraseP_email_absent (users : List User) (email : String)
    (h : (users.map (fun u => u.email)).Nodup) :
    ∀ u ∈ users.eraseP (fun u => u.email == email), u.email ≠ email := by
  induction users with
  | nil => simp
  | cons a rest ih =>
    rw [List.map_cons, List.nodup_cons] at h
    intro u hu
    by_cases ha : a.email = email
    · rw [List.eraseP_cons_of_pos (by simp [ha])] at hu
      intro hue
      apply h.1
      rw [ha, ← hue]
      exact List.mem_map.mpr ⟨u, hu, rfl⟩
    · rw [List.eraseP_cons_of_neg (by simp [ha])] at hu
      rcases List.mem_cons.mp hu with rfl | hu1
      · exact ha
      · exact ih h.2 u hu1

/-- C9, the code at the failing input. Student B owns the video 1, stored as one
chunk; `DELETE /delete-account` for `b@x.com` answers 200, removes the account
and the record, and leaves the chunk of file 1 in `videos.chunks`. -/
theorem deleteAccount_leaves_chunks :
    (labVideo ∈ afterLabUpload.files ∧ labVideo.metadata.userEmail = "b@x.com" ∧
      afterLabUpload.chunks = [{ files_id := 1, n := 0, data := [7, 8, 9] }]) ∧
    (deleteAccount afterLabUpload "b@x.com").1 = ⟨200, "Account deleted successfully"⟩ ∧
    (deleteAccount afterLabUpload "b@x.com").2.users = [teacherA, studentC] ∧
    (deleteAccount afterLabUpload "b@x.com").2.files = [] ∧
    (deleteAccount afterLabUpload "b@x.com").2.chunks
      = [{ files_id := labVideo._id, n := 0, data := [7, 8, 9] }] := by
  decide

/-- C10. Account deletion cascades to the video records: for an email that
resolves to an account, `DELETE /delete-account` answers 200; afterwards
`videos.files` holds no record with that `metadata.userEmail`, the records of
other owners are all kept, unchanged and in order, the first account with that
email is removed, so that no account with that email is left when emails are
pairwise distinct (the invariant of account creation), and a later
`GET /videos.files/:id` of an id of a deleted record is answered 404 (`_id`
being unique in `videos.files`). -/
theorem deleteAccount_cascades (s : State) (email : String) (user : User)
    (hEmail : email ≠ "") (hUser : findOne s.users email = some user) :
    (deleteAccount s email).1 = ⟨200, "Account deleted successfully"⟩ ∧
    (deleteAccount s email).2.users = s.users.eraseP (fun u => u.email == email) ∧
    ((s.users.map (fun u => u.email)).Nodup →
      ∀ u ∈ (deleteAccount s email).2.users, u.email ≠ email) ∧
    (∀ v ∈ (deleteAccount s email).2.files, v.metadata.userEmail ≠ email) ∧
    (deleteAccount s email).2.files
      = s.files.filter (fun v => decide (v.metadata.userEmail ≠ email)) ∧
    (∀ v ∈ s.files, v.metadata.userEmail ≠ email → v ∈ (deleteAccount s email).2.files) ∧
    ((s.files.map (fun v => v._id)).Nodup →
      ∀ v ∈ s.files, v.metadata.userEmail = email →
        ∃ r, download (deleteAccount s email).2 v._id = .error r ∧ r.status = 404) := by
  rw [deleteAccount_of_findOne s email user hEmail hUser]
  have hfilter : s.files.filter (fun v => !(v.metadata.userEmail == email))
      = s.files.filter (fun v => decide (v.metadata.userEmail ≠ email)) := by
    apply List.filter_congr
    intro v _
    by_cases h : v.metadata.userEmail = email <;> simp [h]
  refine ⟨rfl, rfl, ?_, ?_, hfilter, ?_, ?_⟩
  · intro hnd
    exact eraseP_email_absent s.users email hnd
  · intro v hv
    simp only [List.mem_filter] at hv
    simpa using hv.2
  · intro v hv hne
    simp only [List.mem_filter]
    exact ⟨hv, by simp [hne]⟩
  · intro hnd v hv hve
    have hnone : List.find? (fun w => w._id == v._id)
        (s.files.filter (fun v => !(v.metadata.userEmail == email))) = none := by
      rw [List.find?_eq_none]
      intro w hw hid
      simp only [List.mem_filter] at hw
      have hwv : w = v :=
        List.inj_on_of_nodup_map hnd hw.1 hv (by simpa using hid)
      have := hw.2
      rw [hwv, hve] at this
      simp at this
    unfold download
    simp only [hnone]
    split
    · exact ⟨_, rfl, rfl⟩
    · exact ⟨_, rfl, rfl⟩

/-- Witness of C10: after `b@x.com` is deleted no account and no record of
`b@x.com` is left, and the download of the former video 1 is answered 404. -/
theorem deleteAccount_cascades_witness :
    ("b@x.com" ≠ "" ∧ findOne afterLabUpload.users "b@x.com" = some studentB) ∧
    ((afterLabUpload.users.map (fun u => u.email)).Nodup ∧
      (afterLabUpload.files.map (fun v => v._id)).Nodup ∧
      labVideo ∈ afterLabUpload.files ∧ labVideo.metadata.userEmail = "b@x.com") ∧
    download afterLabUpload 1 = .ok { contentType := "video/mp4", body := [7, 8, 9] } ∧
    (deleteAccount afterLabUpload "b@x.com").1 = ⟨200, "Account deleted successfully"⟩ ∧
    (deleteAccount afterLabUpload "b@x.com").2.users = [teacherA, studentC] ∧
    teacherA.email ≠ "b@x.com" ∧
    (deleteAccount afterLabUpload "b@x.com").2.files = [] ∧
    download (deleteAccount afterLabUpload "b@x.com").2 1 = .error ⟨404, "Video not found"⟩ ∧
    (∃ r, download (deleteAccount afterLabUpload "b@x.com").2 labVideo._id = .error r
      ∧ r.status = 404) :=
  have h := deleteAccount_cascades afterLabUpload "b@x.com" studentB (by decide) (by decide)
  ⟨⟨by decide, by decide⟩, ⟨by decide, by decide, by decide, by decide⟩, by decide,
    h.1, by decide, h.2.2.1 (by decide) teacherA (by decide), by decide, by decide,
    h.2.2.2.2.2.2 (by decide) labVideo (by decide) (by decide)⟩

/-! ## Marking as viewed, content type, deletion of a video -/

/-- The effect of `updateOneFile` when a record with the id exists. -/
theorem updateOneFile_of_find (files : List VideoFile) (id : ObjectId)
    (change : VideoFile → VideoFile) (v : VideoFile)
    (h : files.find? (fun w => w._id == id) = some v) :
    (updateOneFile files id change).2 = (if change v = v then 0 else 1) ∧
    ((change v)._id = id →
      (updateOneFile files id change).1.find? (fun w => w._id == id) = some (change v)) := by
  induction files with
  | nil => simp at h
  | cons a rest ih =>
    rw [List.find?_cons] at h
    by_cases ha : a._id = id
    · have hb : (a._id == id) = true := by simp [ha]
      rw [hb] at h
      simp only [Option.some.injEq] at h
      subst h
      refine ⟨by simp [updateOneFile, hb], ?_⟩
      intro hc
      simp [updateOneFile, hb, hc]
    · have hb : (a._id == id) = false := by simp [ha]
      rw [hb] at h
      have ih1 := ih h
      refine ⟨by simp [updateOneFile, hb, ih1.1], ?_⟩
      intro hc
      simp only [updateOneFile, hb, Bool.false_eq_true, if_false]
      rw [List.find?_cons, hb]
      exact ih1.2 hc

/-- An update that modified no record leaves `videos.files` as it was. -/
theorem updateOneFile_unchanged (files : List VideoFile) (id : ObjectId)
    (change : VideoFile → VideoFile) (h : (updateOneFile files id change).2 = 0) :
    (updateOneFile files id change).1 = files := by
  induction files with
  | nil => rfl
  | cons a rest ih =>
    by_cases ha : (a._id == id) = true
    · simp only [updateOneFile, ha, if_true] at h ⊢
      by_cases hc : change a = a
      · rw [hc]
      · simp [hc] at h
    · have hb : (a._id == id) = false := by simpa using ha
      simp only [updateOneFile, hb, Bool.false_eq_true, if_false] at h ⊢
      rw [ih h]

/-- With no record of that id, `updateOneFile` modifies nothing. -/
theorem updateOneFile_of_find_none (files : List VideoFile) (id : ObjectId)
    (change : VideoFile → VideoFile) (h : files.find? (fun w => w._id == id) = none) :
    (updateOneFile files id change).2 = 0 := by
  induction files with
  | nil => rfl
  | cons a rest ih =>
    rw [List.find?_cons] at h
    by_cases ha : (a._id == id) = true
    · rw [ha] at h; simp at h
    · have hb : (a._id == id) = false := by simpa using ha
      rw [hb] at h
      simp only [updateOneFile, hb, Bool.false_eq_true, if_false]
      exact ih h

/-- C11, counterexample. The video 1 of student B has a record; the first
`POST /videos/view` answers 200, the second one answers 404
`Video not found or already viewed` although the record is still there. -/
theorem markViewed_twice_counterexample :
    afterLabUpload.files.find? (fun v => v._id == 1) = some labVideo ∧
    (markViewed afterLabUpload (some 1)).1 = ⟨200, "Video marked as viewed successfully"⟩ ∧
    afterFirstView.files.find? (fun v => v._id == 1) = some (setViewed labVideo) ∧
    (markViewed afterFirstView (some 1)).1 = ⟨404, "Video not found or already viewed"⟩ := by
  decide

/-- C11, amended. `POST /videos/view` answers 404 when no record has the id and
also when the record is already viewed: for an id with a record whose viewed
flag is false or missing the call answers 200 and leaves `viewed = true`; for a
record whose flag is already true, and for an id without record, it answers 404
`Video not found or already viewed` and changes nothing. So a second call on
the same video answers 404. -/
theorem markViewed_outcomes (s : State) (id : ObjectId) :
    (∀ v, s.files.find? (fun w => w._id == id) = some v → v.metadata.viewed ≠ some true →
      (markViewed s (some id)).1 = ⟨200, "Video marked as viewed successfully"⟩ ∧
      (markViewed s (some id)).2.files.find? (fun w => w._id == id) = some (setViewed v) ∧
      (setViewed v).metadata.viewed = some true ∧
      (markViewed (markViewed s (some id)).2 (some id)).1
        = ⟨404, "Video not found or already viewed"⟩) ∧
    (∀ v, s.files.find? (fun w => w._id == id) = some v → v.metadata.viewed = some true →
      markViewed s (some id) = (⟨404, "Video not found or already viewed"⟩, s)) ∧
    (s.files.find? (fun w => w._id == id) = none →
      markViewed s (some id) = (⟨404, "Video not found or already viewed"⟩, s)) := by
  have hsame : ∀ st : State, (updateOneFile st.files id setViewed).2 = 0 →
      markViewed st (some id) = (⟨404, "Video not found or already viewed"⟩, st) := by
    intro st h0
    have hu := updateOneFile_unchanged st.files id setViewed h0
    simp only [markViewed, h0, if_true, hu]
  have hviewed : ∀ (st : State) (v : VideoFile),
      st.files.find? (fun w => w._id == id) = some v → v.metadata.viewed = some true →
      markViewed st (some id) = (⟨404, "Video not found or already viewed"⟩, st) := by
    intro st v hv htrue
    apply hsame
    rw [(updateOneFile_of_find st.files id setViewed v hv).1]
    have : setViewed v = v := by
      cases v with
      | mk i l c u f m =>
        cases m
        simp only [setViewed] at htrue ⊢
        simp_all
    simp [this]
  refine ⟨?_, hviewed s, ?_⟩
  · intro v hv hnot
    have hup := updateOneFile_of_find s.files id setViewed v hv
    have hne : setViewed v ≠ v := by
      intro hc
      apply hnot
      rw [← hc]
      rfl
    have hcount : (updateOneFile s.files id setViewed).2 ≠ 0 := by
      rw [hup.1]; simp [hne]
    have hid : (setViewed v)._id = id := by
      have := List.find?_some hv
      simpa [setViewed] using this
    have hfind := hup.2 hid
    have hstate : markViewed s (some id)
        = (⟨200, "Video marked as viewed successfully"⟩,
            { s with files := (updateOneFile s.files id setViewed).1 }) := by
      simp only [markViewed, hcount, if_false]
    refine ⟨by rw [hstate], by rw [hstate]; exact hfind, rfl, ?_⟩
    rw [hstate]
    rw [hviewed _ (setViewed v) hfind rfl]
  · intro hnone
    exact hsame s (updateOneFile_of_find_none s.files id setViewed hnone)

/-- Witness of C11 amended: the video 1 of student B, not viewed, then viewed. -/
theorem markViewed_outcomes_witness :
    (afterLabUpload.files.find? (fun w => w._id == 1) = some labVideo ∧
      labVideo.metadata.viewed ≠ some true) ∧
    ((markViewed afterLabUpload (some 1)).1 = ⟨200, "Video marked as viewed successfully"⟩ ∧
      (markViewed afterLabUpload (some 1)).2.files.find? (fun w => w._id == 1)
        = some (setViewed labVideo) ∧
      (setViewed labVideo).metadata.viewed = some true ∧
      (markViewed (markViewed afterLabUpload (some 1)).2 (some 1)).1
        = ⟨404, "Video not found or already viewed"⟩) ∧
    (afterFirstView.files.find? (fun w => w._id == 1) = some (setViewed labVideo) ∧
      markViewed afterFirstView (some 1)
        = (⟨404, "Video not found or already viewed"⟩, afterFirstView)) ∧
    (afterLabUpload.files.find? (fun w => w._id == 7) = none ∧
      markViewed afterLabUpload (some 7)
        = (⟨404, "Video not found or already viewed"⟩, afterLabUpload)) :=
  ⟨⟨by decide, by decide⟩,
    (markViewed_outcomes afterLabUpload 1).1 labVideo (by decide) (by decide),
    ⟨by decide,
      (markViewed_outcomes afterFirstView 1).2.1 (setViewed labVideo) (by decide) (by decide)⟩,
    ⟨by decide, (markViewed_outcomes afterLabUpload 7).2.2 (by decide)⟩⟩

/-- C12, the code at the failing input. Student B uploads a file of MIME type
`video/webm` through `POST /upload`; the record written has no
`metadata.contentType`, and the download of the video is served with the
`Content-Type` `video/mp4`. -/
theorem download_content_type_not_stored :
    labUpload.file
      = some { originalname := "lab.webm", mimetype := "video/webm", buffer := [7, 8, 9] } ∧
    (upload threeAccounts labUpload 1000 1).1 = ⟨302, "/upload-.html"⟩ ∧
    afterLabUpload.files.find? (fun v => v._id == 1) = some labVideo ∧
    labVideo.metadata.contentType = none ∧
    download afterLabUpload 1 = .ok { contentType := "video/mp4", body := [7, 8, 9] } := by
  decide

/-- What `DELETE /delete-video` does for an id without record. -/
theorem deleteVideo_of_find_none (s : State) (id : ObjectId)
    (h : s.files.find? (fun w => w._id == id) = none) :
    deleteVideo s (some id)
      = (⟨404, "Video not found"⟩,
          { s with chunks := s.chunks.filter (fun c => !(c.files_id == id)) }) := by
  have herase : s.files.eraseP (fun v => v._id == id) = s.files := by
    apply List.eraseP_of_forall_not
    intro a ha
    have := List.find?_eq_none.mp h a ha
    simpa using this
  simp only [deleteVideo, h, Option.isSome_none, Bool.false_eq_true, if_false, if_true, herase]

/-- What `DELETE /delete-video` does for an id with a record. -/
theorem deleteVideo_of_mem (s : State) (v : VideoFile) (h : v ∈ s.files) :
    deleteVideo s (some v._id)
      = (⟨200, "Video deleted successfully"⟩,
          { s with files := s.files.eraseP (fun w => w._id == v._id),
                   chunks := s.chunks.filter (fun c => !(c.files_id == v._id)) }) := by
  have hsome : (s.files.find? (fun w => w._id == v._id)).isSome = true := by
    rw [List.find?_isSome]
    exact ⟨v, h, by simp⟩
  simp [deleteVideo, hsome]

/-- With pairwise distinct ids, erasing the first record of an id leaves only
records of the collection with another id. -/
theorem eraseP_id_absent (files : List VideoFile) (id : ObjectId)
    (h : (files.map (fun v => v._id)).Nodup) :
    ∀ w ∈ files.eraseP (fun v => v._id == id), w ∈ files ∧ w._id ≠ id := by
  induction files with
  | nil => simp
  | cons a rest ih =>
    rw [List.map_cons, List.nodup_cons] at h
    intro w hw
    by_cases ha : a._id = id
    · rw [List.eraseP_cons_of_pos (by simp [ha])] at hw
      refine ⟨List.mem_cons_of_mem _ hw, ?_⟩
      intro hwid
      apply h.1
      rw [ha, ← hwid]
      exact List.mem_map.mpr ⟨w, hw, rfl⟩
    · rw [List.eraseP_cons_of_neg (by simp [ha])] at hw
      rcases List.mem_cons.mp hw with rfl | hw1
      · exact ⟨List.mem_cons_self _ _, ha⟩
      · exact ⟨List.mem_cons_of_mem _ (ih h.2 w hw1).1, (ih h.2 w hw1).2⟩

/-- C13, counterexample. After the account of student B was deleted the chunk
of the former video 1 is still stored and no record has the id 1;
`DELETE /delete-video` of the id 1 answers 404 and removes that chunk, so
`videos.chunks` is not left unchanged. -/
theorem deleteVideo_absent_counterexample :
    afterAccountDeleted.files.find? (fun v => v._id == 1) = none ∧
    afterAccountDeleted.chunks = [{ files_id := 1, n := 0, data := [7, 8, 9] }] ∧
    (deleteVideo afterAccountDeleted (some 1)).1 = ⟨404, "Video not found"⟩ ∧
    (deleteVideo afterAccountDeleted (some 1)).2.chunks = [] ∧
    (deleteVideo afterAccountDeleted (some 1)).2.chunks ≠ afterAccountDeleted.chunks := by
  decide

/-- C13, amended. `DELETE /delete-video` of an id that has no record in
`videos.files` answers 404 `Video not found` and leaves `videos.files` and the
users unchanged; the chunks are deleted before the record count is looked at, so
`videos.chunks` loses exactly the chunks whose `files_id` is that id, and is
unchanged when there is none. -/
theorem deleteVideo_absent (s : State) (id : ObjectId)
    (h : s.files.find? (fun w => w._id == id) = none) :
    (deleteVideo s (some id)).1 = ⟨404, "Video not found"⟩ ∧
    (deleteVideo s (some id)).2.files = s.files ∧
    (deleteVideo s (some id)).2.users = s.users ∧
    (deleteVideo s (some id)).2.chunks = s.chunks.filter (fun c => decide (c.files_id ≠ id)) ∧
    ((∀ c ∈ s.chunks, c.files_id ≠ id) → (deleteVideo s (some id)).2 = s) := by
  rw [deleteVideo_of_find_none s id h]
  refine ⟨rfl, rfl, rfl, ?_, ?_⟩
  · apply List.filter_congr
    intro c _
    by_cases hc : c.files_id = id <;> simp [hc]
  · intro hno
    have hfilter : s.chunks.filter (fun c => !(c.files_id == id)) = s.chunks := by
      rw [List.filter_eq_self]
      intro c hc
      simp [hno c hc]
    simp only [hfilter]

/-- Witness of C13 amended: the id 7 has no record and no chunk in the state
after the upload of student B, and the id 1 has no record after the account of
student B was deleted. -/
theorem deleteVideo_absent_witness :
    (afterLabUpload.files.find? (fun w => w._id == 7) = none ∧
      (deleteVideo afterLabUpload (some 7)).1 = ⟨404, "Video not found"⟩ ∧
      (deleteVideo afterLabUpload (some 7)).2 = afterLabUpload) ∧
    (afterAccountDeleted.files.find? (fun w => w._id == 1) = none ∧
      (deleteVideo afterAccountDeleted (some 1)).2.files = afterAccountDeleted.files ∧
      (deleteVideo afterAccountDeleted (some 1)).2.chunks
        = afterAccountDeleted.chunks.filter (fun c => decide (c.files_id ≠ 1))) :=
  have h7 := deleteVideo_absent afterLabUpload 7 (by decide)
  have h1 := deleteVideo_absent afterAccountDeleted 1 (by decide)
  ⟨⟨by decide, h7.1, h7.2.2.2.2 (by decide)⟩, ⟨by decide, h1.2.1, h1.2.2.2.1⟩⟩

/-- C14. Delete then upload again: for an existing video record `v`, in a state
whose records have pairwise distinct ids and pairwise distinct triples,
`DELETE /delete-video` of the id of `v` answers 200; afterwards no record and no
chunk with that id remains, the duplicate query for the triple of `v` finds
nothing, and an upload by the owner of `v` with the same title and class code
is accepted (redirect 302) and creates a new record with that triple. -/
theorem deleteVideo_then_upload (s : State) (v : VideoFile) (hv : v ∈ s.files)
    (hIds : (s.files.map (fun w => w._id)).Nodup)
    (hTriples : (s.files.map VideoFile.triple).Nodup) :
    (deleteVideo s (some v._id)).1 = ⟨200, "Video deleted successfully"⟩ ∧
    (∀ w ∈ (deleteVideo s (some v._id)).2.files, w._id ≠ v._id) ∧
    (∀ c ∈ (deleteVideo s (some v._id)).2.chunks, c.files_id ≠ v._id) ∧
    findExistingVideo (deleteVideo s (some v._id)).2.files
      v.metadata.userEmail v.metadata.title v.metadata.classCode = none ∧
    (∀ (req : UploadRequest) (now : Nat) (newId : ObjectId) (file : UploadedFile) (user : User),
      req.file = some file → startsWith file.mimetype "video/" = true →
      file.buffer.length ≤ fileSizeLimit → findOne s.users req.email = some user →
      user.email = v.metadata.userEmail → req.title = v.metadata.title →
      req.classCode = v.metadata.classCode →
      (upload (deleteVideo s (some v._id)).2 req now newId).1 = ⟨302, "/upload-.html"⟩ ∧
      ∃ record : VideoFile, record._id = newId ∧ record.triple = v.triple ∧
        (upload (deleteVideo s (some v._id)).2 req now newId).2.files
          = (deleteVideo s (some v._id)).2.files ++ [record]) := by
  rw [deleteVideo_of_mem s v hv]
  have herased := eraseP_id_absent s.files v._id hIds
  have hnone : findExistingVideo (s.files.eraseP (fun w => w._id == v._id))
      v.metadata.userEmail v.metadata.title v.metadata.classCode = none := by
    rw [findExistingVideo_eq_none]
    intro hmem
    obtain ⟨w, hw, hwt⟩ := List.mem_map.mp hmem
    have hwv : w = v := List.inj_on_of_nodup_map hTriples (herased w hw).1 hv hwt
    exact (herased w hw).2 (by rw [hwv])
  refine ⟨rfl, fun w hw => (herased w hw).2, ?_, hnone, ?_⟩
  · intro c hc
    simp only [List.mem_filter] at hc
    simpa using hc.2
  · intro req now newId file user hfile hm hl hu hue ht hcc
    rw [← hue, ← ht, ← hcc] at hnone
    unfold upload
    simp only [hfile, hm, Nat.not_lt.mpr hl, hu, hnone]
    refine ⟨by simp, ⟨_, rfl, ?_, by simp; rfl⟩⟩
    simp [VideoFile.triple, hue, ht, hcc]

/-- Witness of C14: owner `b@x.com`, title Lab1, class code X1. The second
upload is rejected, the video is deleted, the third upload is accepted. -/
theorem deleteVideo_then_upload_witness :
    (labVideo ∈ afterLabUpload.files ∧
      (afterLabUpload.files.map (fun w => w._id)).Nodup ∧
      (afterLabUpload.files.map VideoFile.triple).Nodup) ∧
    (upload afterLabUpload labUpload 2000 2).1
      = ⟨400, "A video with the same title and class code already exists"⟩ ∧
    (deleteVideo afterLabUpload (some labVideo._id)).1 = ⟨200, "Video deleted successfully"⟩ ∧
    findExistingVideo (deleteVideo afterLabUpload (some labVideo._id)).2.files
      labVideo.metadata.userEmail labVideo.metadata.title labVideo.metadata.classCode = none ∧
    (upload (deleteVideo afterLabUpload (some labVideo._id)).2 labUpload 3000 3).1
      = ⟨302, "/upload-.html"⟩ ∧
    afterLabDeleted.files = [] ∧ afterLabDeleted.chunks = [] ∧
    ((upload afterLabDeleted labUpload 3000 3).2.files.map VideoFile.triple)
      = [("b@x.com", "Lab1", "X1")] :=
  have h := deleteVideo_then_upload afterLabUpload labVideo (by decide) (by decide) (by decide)
  ⟨⟨by decide, by decide, by decide⟩, by decide, h.1, h.2.2.2.1,
    (h.2.2.2.2 labUpload 3000 3
      { originalname := "lab.webm", mimetype := "video/webm", buffer := [7, 8, 9] } studentB
      rfl (by decide) (by decide) (by decide) (by decide) (by decide) (by decide)).1,
    by decide, by decide, by decide⟩

/-! ## Upload and download of the bytes -/

/-- The segments of a buffer, put end to end, are the buffer. -/
theorem sliceBuffer_join (size : Nat) (hsize : 0 < size) (fuel : Nat) (buffer : List Nat)
    (hfuel : buffer.length ≤ fuel) : (sliceBuffer size fuel buffer).flatten = buffer := by
  induction fuel generalizing buffer with
  | zero =>
    have : buffer = [] := List.length_eq_zero.mp (Nat.le_zero.mp hfuel)
    subst this
    rfl
  | succ fuel ih =>
    cases buffer with
    | nil => rfl
    | cons b bs =>
      have hlen : ((b :: bs).drop size).length ≤ fuel := by
        rw [List.length_drop]
        simp only [List.length_cons] at hfuel ⊢
        omega
      simp only [sliceBuffer, List.isEmpty_cons, Bool.false_eq_true, if_false, List.flatten_cons]
      rw [ih _ hlen, List.take_append_drop]

/-- A non-empty buffer gives at least one segment. -/
theorem sliceBuffer_ne_nil (size : Nat) (fuel : Nat) (buffer : List Nat)
    (hpos : 0 < buffer.length) (hfuel : buffer.length ≤ fuel) :
    sliceBuffer size fuel buffer ≠ [] := by
  cases fuel with
  | zero => omega
  | succ fuel =>
    cases buffer with
    | nil => simp at hpos
    | cons b bs => simp [sliceBuffer]

/-- The download loop reads the segments of a buffer, numbered from `k` on,
back into the buffer, without error. -/
theorem readChunks_sliceBuffer (id : ObjectId) (size : Nat) (hsize : 0 < size) (fuel : Nat)
    (buffer : List Nat) (k : Nat) (hfuel : buffer.length ≤ fuel) :
    readChunks size
      (((sliceBuffer size fuel buffer).enumFrom k).map
        (fun p => ({ files_id := id, n := p.1, data := p.2 } : Chunk)))
      k buffer.length = (buffer, none) := by
  induction fuel generalizing buffer k with
  | zero =>
    have : buffer = [] := List.length_eq_zero.mp (Nat.le_zero.mp hfuel)
    subst this
    simp [sliceBuffer, readChunks]
  | succ fuel ih =>
    cases buffer with
    | nil => simp [sliceBuffer, readChunks]
    | cons b bs =>
      have hlen : ((b :: bs).drop size).length ≤ fuel := by
        rw [List.length_drop]
        simp only [List.length_cons] at hfuel ⊢
        omega
      have hrem : (b :: bs).length - ((b :: bs).take size).length
          = ((b :: bs).drop size).length := by
        rw [List.length_drop, List.length_take]
        omega
      have ih1 := ih ((b :: bs).drop size) (k + 1) hlen
      have hsz : ((b :: bs).take size).length = min size (b :: bs).length := List.length_take _ _
      have hne : ¬ (((b :: bs).take size).length = 0) := by
        rw [hsz]
        simp only [List.length_cons]
        omega
      simp only [sliceBuffer, List.isEmpty_cons, Bool.false_eq_true, if_false,
        List.enumFrom_cons, List.map_cons, readChunks]
      simp only [Nat.lt_irrefl, gt_iff_lt, if_false, ne_eq, hne]
      rw [if_neg (by rw [hsz]; simp), hrem, ih1]
      simp only [List.take_append_drop]

/-- Chunk documents numbered in ascending order are already sorted. -/
theorem sortByN_enumFrom (id : ObjectId) (segments : List (List Nat)) (k : Nat) :
    sortByN ((segments.enumFrom k).map
        (fun p => ({ files_id := id, n := p.1, data := p.2 } : Chunk)))
      = (segments.enumFrom k).map
        (fun p => ({ files_id := id, n := p.1, data := p.2 } : Chunk)) := by
  induction segments generalizing k with
  | nil => rfl
  | cons seg rest ih =>
    simp only [List.enumFrom_cons, List.map_cons, sortByN]
    rw [ih (k + 1)]
    cases rest with
    | nil => rfl
    | cons seg2 rest2 =>
      simp [List.enumFrom_cons, insertByN]

/-- Every chunk document of `chunksOf id buffer` belongs to the file `id`. -/
theorem chunksOf_files_id (id : ObjectId) (buffer : List Nat) :
    ∀ c ∈ chunksOf id buffer, c.files_id = id := by
  intro c hc
  unfold chunksOf at hc
  obtain ⟨p, _, hp⟩ := List.mem_map.mp hc
  rw [← hp]

/-- What an accepted upload writes. -/
theorem upload_accepted (s : State) (req : UploadRequest) (now : Nat) (newId : ObjectId)
    (file : UploadedFile) (user : User)
    (hfile : req.file = some file) (hm : startsWith file.mimetype "video/" = true)
    (hl : file.buffer.length ≤ fileSizeLimit) (hu : findOne s.users req.email = some user)
    (hdup : findExistingVideo s.files user.email req.title req.classCode = none) :
    ∃ record : VideoFile,
      record._id = newId ∧ record.length = file.buffer.length ∧
      record.chunkSize = chunkSizeBytes ∧ record.metadata.contentType = none ∧
      upload s req now newId
        = (⟨302, "/upload-.html"⟩,
            { s with files := s.files ++ [record],
                     chunks := s.chunks ++ chunksOf newId file.buffer }) := by
  unfold upload
  simp only [hfile, hm, Nat.not_lt.mpr hl, hu, hdup]
  exact ⟨_, rfl, rfl, rfl, rfl, by simp; rfl⟩

/-! ## Claims on the bytes of a video -/

/-- C15, counterexample. Student B uploads a file of length 0: the upload is
accepted, GridFS writes a record of length 0 and no chunk, and the download of
the new id is answered 404 `Video chunks not found` instead of the 0 bytes. -/
theorem upload_download_empty_counterexample :
    emptyUpload.file
      = some { originalname := "empty.webm", mimetype := "video/webm", buffer := [] } ∧
    (upload threeAccounts emptyUpload 1000 1).1 = ⟨302, "/upload-.html"⟩ ∧
    ((upload threeAccounts emptyUpload 1000 1).2.files.map (fun v => (v._id, v.length)))
      = [(1, 0)] ∧
    (upload threeAccounts emptyUpload 1000 1).2.chunks = [] ∧
    download (upload threeAccounts emptyUpload 1000 1).2 1
      = .error ⟨404, "Video chunks not found"⟩ := by
  decide

/-- C15, amended. Round trip of upload and download for a file of length `M`
from 1 up to the 5 GiB maximum: when `POST /upload` accepts the file under a
new id, the chunks stored under that id are numbered 0, 1, 2, ... without gap,
their lengths sum to `M`, and `GET /videos.files/:id` of that id yields exactly
the `M` bytes in the original order. For `M = 0` the upload is accepted as
well, no chunk is stored, and the download is answered 404
`Video chunks not found`. -/
theorem upload_download_roundtrip (s : State) (req : UploadRequest) (now : Nat)
    (newId : ObjectId) (file : UploadedFile) (user : User)
    (hfile : req.file = some file) (hm : startsWith file.mimetype "video/" = true)
    (hl : file.buffer.length ≤ fileSizeLimit) (hu : findOne s.users req.email = some user)
    (hdup : findExistingVideo s.files user.email req.title req.classCode = none)
    (hFiles : ∀ v ∈ s.files, v._id ≠ newId) (hChunks : ∀ c ∈ s.chunks, c.files_id ≠ newId) :
    (upload s req now newId).1 = ⟨302, "/upload-.html"⟩ ∧
    (upload s req now newId).2.chunks.filter (fun c => c.files_id == newId)
      = chunksOf newId file.buffer ∧
    (chunksOf newId file.buffer).map (fun c => c.n)
      = List.range (chunksOf newId file.buffer).length ∧
    ((chunksOf newId file.buffer).map (fun c => c.data.length)).sum = file.buffer.length ∧
    (0 < file.buffer.length →
      download (upload s req now newId).2 newId
        = .ok { contentType := "video/mp4", body := file.buffer }) ∧
    (file.buffer.length = 0 →
      download (upload s req now newId).2 newId = .error ⟨404, "Video chunks not found"⟩) := by
  obtain ⟨record, hid, hlen, hcs, hct, hup⟩ :=
    upload_accepted s req now newId file user hfile hm hl hu hdup
  have hsize : 0 < chunkSizeBytes := by decide
  have hfilter : (s.chunks ++ chunksOf newId file.buffer).filter (fun c => c.files_id == newId)
      = chunksOf newId file.buffer := by
    rw [List.filter_append]
    have h1 : s.chunks.filter (fun c => c.files_id == newId) = [] := by
      rw [List.filter_eq_nil_iff]
      intro c hc
      simpa using hChunks c hc
    have h2 : (chunksOf newId file.buffer).filter (fun c => c.files_id == newId)
        = chunksOf newId file.buffer := by
      rw [List.filter_eq_self]
      intro c hc
      simpa using chunksOf_files_id newId file.buffer c hc
    rw [h1, h2, List.nil_append]
  have hfind : (s.files ++ [record]).find? (fun v => v._id == newId) = some record := by
    rw [List.find?_append]
    have h1 : s.files.find? (fun v => v._id == newId) = none := by
      rw [List.find?_eq_none]
      intro v hv
      simpa using hFiles v hv
    rw [h1]
    simp [hid]
  have hns : (chunksOf newId file.buffer).map (fun c => c.n)
      = List.range (chunksOf newId file.buffer).length := by
    unfold chunksOf
    rw [List.map_map, List.length_map, List.enum_length]
    exact List.enum_map_fst _
  have hsum : ((chunksOf newId file.buffer).map (fun c => c.data.length)).sum
      = file.buffer.length := by
    unfold chunksOf
    rw [List.map_map]
    have hcomp : ((fun c : Chunk => c.data.length) ∘
        fun p : Nat × List Nat => ({ files_id := newId, n := p.1, data := p.2 } : Chunk))
        = List.length ∘ Prod.snd := rfl
    rw [hcomp, ← List.map_map, List.enum_map_snd, ← List.length_flatten,
      sliceBuffer_join chunkSizeBytes hsize _ _ (Nat.le_refl _)]
  rw [hup]
  refine ⟨rfl, hfilter, hns, hsum, ?_, ?_⟩
  · intro hpos
    have hne : (chunksOf newId file.buffer).length ≠ 0 := by
      unfold chunksOf
      rw [List.length_map, List.enum_length]
      intro h0
      exact sliceBuffer_ne_nil chunkSizeBytes _ _ hpos (Nat.le_refl _)
        (List.length_eq_zero.mp h0)
    have hread : openDownloadStream
        { s with files := s.files ++ [record],
                 chunks := s.chunks ++ chunksOf newId file.buffer } newId
        = (file.buffer, none) := by
      simp only [openDownloadStream, hfind, hfilter, hcs, hlen, Nat.pos_iff_ne_zero.mp hpos,
        if_false]
      unfold chunksOf
      rw [List.enum, sortByN_enumFrom]
      exact readChunks_sliceBuffer newId chunkSizeBytes hsize _ _ 0 (Nat.le_refl _)
    simp only [download, hfilter, hne, if_false, hfind, hread, hct]
  · intro hzero
    have hnil : chunksOf newId file.buffer = [] := by
      have : file.buffer = [] := List.length_eq_zero.mp hzero
      rw [this]
      rfl
    rw [hnil] at hfilter
    simp only [download, hnil, hfilter, List.length_nil, if_true]

/-- Witness of C15 amended: the three bytes of the upload of student B come
back from the download of the id 1; the empty upload is answered 404. -/
theorem upload_download_roundtrip_witness :
    (findOne threeAccounts.users labUpload.email = some studentB ∧
      findExistingVideo threeAccounts.files studentB.email labUpload.title labUpload.classCode
        = none) ∧
    (upload threeAccounts labUpload 1000 1).1 = ⟨302, "/upload-.html"⟩ ∧
    (upload threeAccounts labUpload 1000 1).2.chunks
      = [{ files_id := 1, n := 0, data := [7, 8, 9] }] ∧
    download (upload threeAccounts labUpload 1000 1).2 1
      = .ok { contentType := "video/mp4", body := [7, 8, 9] } ∧
    download (upload threeAccounts emptyUpload 1000 1).2 1
      = .error ⟨404, "Video chunks not found"⟩ :=
  have h := upload_download_roundtrip threeAccounts labUpload 1000 1
    { originalname := "lab.webm", mimetype := "video/webm", buffer := [7, 8, 9] } studentB
    rfl (by decide) (by decide) (by decide) (by decide) (by decide) (by decide)
  have h0 := upload_download_roundtrip threeAccounts emptyUpload 1000 1
    { originalname := "empty.webm", mimetype := "video/webm", buffer := [] } studentB
    rfl (by decide) (by decide) (by decide) (by decide) (by decide) (by decide)
  ⟨⟨by decide, by decide⟩, h.1, by decide, h.2.2.2.2.1 (by decide), h0.2.2.2.2.2 rfl⟩

/-! ## Removal of a class code -/

/-- Removing a class code that the account holds succeeds and pulls every
occurrence from the array of the first account with that email. -/
theorem updateUser_delete_ok (users : List User) (email c : String) (user : User)
    (h : findOne users email = some user) (hc : c ∈ user.classCodesArray) :
    updateUser users email c "delete" = .ok (updateOne users email (pullClassCode c)).1 ∧
    afterUpdateUser users email c "delete" = (updateOne users email (pullClassCode c)).1 ∧
    findOne (updateOne users email (pullClassCode c)).1 email = some (pullClassCode c user) := by
  have hne : pullClassCode c user ≠ user := by
    intro heq
    have harr : user.classCodesArray.filter (fun d => d != c) = user.classCodesArray :=
      congrArg (fun u => u.classCodesArray) heq
    rw [← harr, List.mem_filter] at hc
    simpa using hc.2
  have hup := updateOne_of_findOne users email (pullClassCode c) user h
  have hmail : (pullClassCode c user).email = email := (findOne_some _ _ _ h).1
  have hok : updateUser users email c "delete"
      = .ok (updateOne users email (pullClassCode c)).1 := by
    unfold updateUser
    rw [h]
    have hna : ¬ ("delete" = "add") := by decide
    simp [hna, hc, hup.1, hne]
  exact ⟨hok, by unfold afterUpdateUser; rw [hok], hup.2.1 hmail⟩

/-- C18. A successful removal of a class code removes every occurrence: for an
existing account whose classCodesArray contains `c`,
`updateUser(email, {classCode: c}, delete)` succeeds; afterwards `c` does not
occur in the array, every other code keeps its occurrences and the order is
kept, and a second delete throws `Class code does not exist`. In particular,
adding `c` twice and deleting it once leaves `c` absent. -/
theorem updateUser_delete_removes_all (users : List User) (email c : String) (user : User)
    (h : findOne users email = some user) :
    (c ∈ user.classCodesArray →
      updateUser users email c "delete" = .ok (afterUpdateUser users email c "delete") ∧
      (findOne (afterUpdateUser users email c "delete") email).map (fun u => u.classCodesArray)
        = some (user.classCodesArray.filter (fun d => d != c)) ∧
      updateUser (afterUpdateUser users email c "delete") email c "delete"
        = .error .classCodeMissing) ∧
    c ∉ user.classCodesArray.filter (fun d => d != c) ∧
    (∀ d, d ≠ c →
      (user.classCodesArray.filter (fun d => d != c)).count d = user.classCodesArray.count d) ∧
    (user.classCodesArray.filter (fun d => d != c)).Sublist user.classCodesArray ∧
    (findOne
        (afterUpdateUser
          (afterUpdateUser (afterUpdateUser users email c "add") email c "add")
          email c "delete") email).map (fun u => u.classCodesArray)
      = some (user.classCodesArray.filter (fun d => d != c)) := by
  have habsent : ∀ arr : List String, c ∉ arr.filter (fun d => d != c) := by
    intro arr hmem
    rw [List.mem_filter] at hmem
    simpa using hmem.2
  refine ⟨?_, habsent _, ?_, List.filter_sublist _, ?_⟩
  · intro hc
    have h1 := updateUser_delete_ok users email c user h hc
    refine ⟨by rw [h1.2.1]; exact h1.1, by rw [h1.2.1, h1.2.2]; rfl, ?_⟩
    rw [h1.2.1]
    unfold updateUser
    rw [h1.2.2]
    have hna : ¬ ("delete" = "add") := by decide
    have hno : c ∉ (pullClassCode c user).classCodesArray := habsent _
    simp [hna, hno]
  · intro d hd
    apply List.count_filter
    simpa using hd
  · have a1 := updateUser_add_ok users email c user h
    have a2 := updateUser_add_ok _ email c _ a1.2.2
    have hmem : c ∈ (pushClassCode c (pushClassCode c user)).classCodesArray := by
      simp [pushClassCode]
    have d1 := updateUser_delete_ok _ email c _ a2.2.2 hmem
    rw [a1.2.1, a2.2.1, d1.2.1, d1.2.2]
    simp [pullClassCode, pushClassCode, List.filter_append]

/-- Witness of C18: the account `b@x.com` with the codes X1, C1, Z9, C1 loses both
occurrences of C1 and keeps X1 and Z9 in order. -/
theorem updateUser_delete_removes_all_witness :
    (findOne [{ studentB with classCodesArray := ["X1", "C1", "Z9", "C1"] }] "b@x.com"
        = some { studentB with classCodesArray := ["X1", "C1", "Z9", "C1"] } ∧
      "C1" ∈ ["X1", "C1", "Z9", "C1"]) ∧
    (updateUser [{ studentB with classCodesArray := ["X1", "C1", "Z9", "C1"] }]
        "b@x.com" "C1" "delete"
      = .ok (afterUpdateUser [{ studentB with classCodesArray := ["X1", "C1", "Z9", "C1"] }]
          "b@x.com" "C1" "delete") ∧
      (findOne (afterUpdateUser [{ studentB with classCodesArray := ["X1", "C1", "Z9", "C1"] }]
          "b@x.com" "C1" "delete") "b@x.com").map (fun u => u.classCodesArray)
        = some (["X1", "C1", "Z9", "C1"].filter (fun d => d != "C1")) ∧
      updateUser (afterUpdateUser [{ studentB with classCodesArray := ["X1", "C1", "Z9", "C1"] }]
          "b@x.com" "C1" "delete") "b@x.com" "C1" "delete"
        = .error .classCodeMissing) ∧
    ["X1", "C1", "Z9", "C1"].filter (fun d => d != "C1") = ["X1", "Z9"] ∧
    afterUpdateUser [{ studentB with classCodesArray := ["X1", "C1", "Z9", "C1"] }]
        "b@x.com" "C1" "delete"
      = [{ studentB with classCodesArray := ["X1", "Z9"] }] :=
  ⟨⟨by decide, by decide⟩,
    (updateUser_delete_removes_all [{ studentB with classCodesArray := ["X1", "C1", "Z9", "C1"] }]
      "b@x.com" "C1" { studentB with classCodesArray := ["X1", "C1", "Z9", "C1"] }
      (by decide)).1 (by decide),
    by decide, by decide⟩

/-! ## Registration -/

/-- A key that both the list of the route and the table of `createUser` accept
is `STUDENT_KEY_1` for a student and `TEACHER_KEY_2` for a teacher. -/
theorem accepted_pair (accountType licenseKey : String) (keys : List String)
    (hroute : licenseKey ∈ Server.validLicenseKeys)
    (hv : validLicenseKeys accountType = some keys) (hk : licenseKey ∈ keys) :
    (accountType = "student" ∧ licenseKey = "STUDENT_KEY_1") ∨
      (accountType = "teacher" ∧ licenseKey = "TEACHER_KEY_2") := by
  unfold validLicenseKeys at hv
  simp only [Server.validLicenseKeys, List.mem_cons, List.mem_singleton, List.not_mem_nil,
    or_false] at hroute
  by_cases hs : accountType = "student"
  · simp only [hs, if_true, Option.some.injEq] at hv
    subst hv
    simp only [List.mem_cons, List.mem_singleton, List.not_mem_nil, or_false] at hk
    rcases hk with hk | hk
    · exact Or.inl ⟨hs, hk⟩
    · subst hk
      exact absurd hroute (by decide)
  · by_cases ht : accountType = "teacher"
    · have hts : ¬ ("teacher" = "student") := by decide
      simp only [ht, hts, if_true, if_false, Option.some.injEq] at hv
      subst hv
      simp only [List.mem_cons, List.mem_singleton, List.not_mem_nil, or_false] at hk
      rcases hk with hk | hk
      · subst hk
        exact absurd hroute (by decide)
      · exact Or.inr ⟨ht, hk⟩
    · simp [hs, ht] at hv

/-- The replies of `POST /register`: the state changes only with the reply 200,
and every other reply has the status 400. -/
theorem register_cases (s : State) (req : RegisterRequest) (hashedPassword : String) :
    ((register s req hashedPassword).1.status = 400 ∧ (register s req hashedPassword).2 = s) ∨
    ((register s req hashedPassword).1.status = 200 ∧
      req.licenseKey ∈ Server.validLicenseKeys ∧
      ∃ keys, validLicenseKeys req.accountType = some keys ∧ req.licenseKey ∈ keys) := by
  by_cases hroute : req.licenseKey ∈ Server.validLicenseKeys
  · by_cases hschool : req.schoolName ∈ validSchoolNames
    · cases hf : findOne s.users req.email with
      | some u =>
        left
        simp [register, hroute, hschool, hf]
      | none =>
        cases hcreate : createUser s.users
            { firstName := req.firstName, email := req.email, password := hashedPassword,
              classCodesArray := (split req.classCodes).map trim,
              licenseKey := req.licenseKey, accountType := req.accountType,
              schoolName := req.schoolName } with
        | error e =>
          left
          simp [register, hroute, hschool, hf, hcreate]
        | ok users1 =>
          right
          have hok := (createUser_ok_iff _ _ _).mp hcreate
          exact ⟨by simp [register, hroute, hschool, hf, hcreate], hroute, hok.2.1⟩
    · left
      simp [register, hroute, hschool]
  · left
    simp [register, hroute]

/-- C17. Only two pairs of account type and licence key can register through
`POST /register`: a registration answered 200 has the pair (student,
`STUDENT_KEY_1`) or (teacher, `TEACHER_KEY_2`); every other pair is answered
400 and inserts nothing. The keys `STUDENT_KEY_2` and `TEACHER_KEY_1` are
refused by the list of the route (`Invalid license key`); the keys
`BurnsideHighSchool`, `MP003` and `3399` pass that list and are refused by
`createUser` as invalid for the account type; an account type other than
student or teacher makes `createUser` throw its `TypeError`. -/
theorem register_only_two_pairs (s : State) (req : RegisterRequest) (hashedPassword : String) :
    ((register s req hashedPassword).1.status = 200 →
      (req.accountType = "student" ∧ req.licenseKey = "STUDENT_KEY_1") ∨
        (req.accountType = "teacher" ∧ req.licenseKey = "TEACHER_KEY_2")) ∧
    (¬ ((req.accountType = "student" ∧ req.licenseKey = "STUDENT_KEY_1") ∨
        (req.accountType = "teacher" ∧ req.licenseKey = "TEACHER_KEY_2")) →
      (register s req hashedPassword).1.status = 400 ∧ (register s req hashedPassword).2 = s) ∧
    (req.licenseKey = "STUDENT_KEY_2" ∨ req.licenseKey = "TEACHER_KEY_1" →
      register s req hashedPassword = (⟨400, "Invalid license key"⟩, s)) ∧
    (req.licenseKey = "BurnsideHighSchool" ∨ req.licenseKey = "MP003" ∨ req.licenseKey = "3399" →
      req.accountType = "student" ∨ req.accountType = "teacher" →
      req.schoolName ∈ validSchoolNames → findOne s.users req.email = none →
      register s req hashedPassword
        = (⟨400, "Invalid license key for the selected account type."⟩, s)) ∧
    (req.accountType ≠ "student" → req.accountType ≠ "teacher" →
      req.licenseKey ∈ Server.validLicenseKeys →
      req.schoolName ∈ validSchoolNames → findOne s.users req.email = none →
      register s req hashedPassword = (⟨400, DbError.message .typeError⟩, s)) := by
  have hcases := register_cases s req hashedPassword
  refine ⟨?_, ?_, ?_, ?_, ?_⟩
  · intro h200
    rcases hcases with ⟨h400, _⟩ | ⟨_, hroute, keys, hv, hk⟩
    · rw [h400] at h200
      exact absurd h200 (by decide)
    · exact accepted_pair _ _ keys hroute hv hk
  · intro hnot
    rcases hcases with h | ⟨_, hroute, keys, hv, hk⟩
    · exact h
    · exact absurd (accepted_pair _ _ keys hroute hv hk) hnot
  · intro hkey
    have hroute : req.licenseKey ∉ Server.validLicenseKeys := by
      rcases hkey with hkey | hkey <;> rw [hkey] <;> decide
    simp [register, hroute]
  · intro hkey htype hschool hf
    have hroute : req.licenseKey ∈ Server.validLicenseKeys := by
      rcases hkey with hkey | hkey | hkey <;> rw [hkey] <;> decide
    have hcreate : createUser s.users
        { firstName := req.firstName, email := req.email, password := hashedPassword,
          classCodesArray := (split req.classCodes).map trim,
          licenseKey := req.licenseKey, accountType := req.accountType,
          schoolName := req.schoolName } = .error .invalidLicenseKey := by
      unfold createUser
      simp only [hf]
      rcases htype with ht | ht <;> rcases hkey with hkey | hkey | hkey <;>
        rw [ht, hkey] <;> simp [validLicenseKeys]
    simp [register, hroute, hschool, hf, hcreate, DbError.message]
  · intro hns hnt hroute hschool hf
    have hcreate : createUser s.users
        { firstName := req.firstName, email := req.email, password := hashedPassword,
          classCodesArray := (split req.classCodes).map trim,
          licenseKey := req.licenseKey, accountType := req.accountType,
          schoolName := req.schoolName } = .error .typeError := by
      unfold createUser
      simp only [hf]
      simp [validLicenseKeys, hns, hnt]
    simp [register, hroute, hschool, hf, hcreate]

/-- Witness of C17: a student under `STUDENT_KEY_1` registers; the same student
under `MP003`, under `STUDENT_KEY_2`, or with the account type `admin` is refused. -/
theorem register_only_two_pairs_witness :
    ((register threeAccounts studentRegistration "h").1.status = 200 ∧
      ((studentRegistration.accountType = "student" ∧
          studentRegistration.licenseKey = "STUDENT_KEY_1") ∨
        (studentRegistration.accountType = "teacher" ∧
          studentRegistration.licenseKey = "TEACHER_KEY_2")) ∧
      (register threeAccounts studentRegistration "h").2.users
        = threeAccounts.users ++
          [{ firstName := "dan", email := "d@x.com", password := "h",
             classCodesArray := ["X1", "Y2"], licenseKey := "STUDENT_KEY_1",
             accountType := "student", schoolName := "Burnside" }]) ∧
    ((register threeAccounts { studentRegistration with licenseKey := "MP003" } "h").1.status
        = 400 ∧
      (register threeAccounts { studentRegistration with licenseKey := "MP003" } "h").2
        = threeAccounts) ∧
    register threeAccounts { studentRegistration with licenseKey := "STUDENT_KEY_2" } "h"
      = (⟨400, "Invalid license key"⟩, threeAccounts) ∧
    register threeAccounts { studentRegistration with licenseKey := "MP003" } "h"
      = (⟨400, "Invalid license key for the selected account type."⟩, threeAccounts) ∧
    register threeAccounts { studentRegistration with accountType := "admin" } "h"
      = (⟨400, DbError.message .typeError⟩, threeAccounts) :=
  ⟨⟨by decide, (register_only_two_pairs threeAccounts studentRegistration "h").1 (by decide),
      by decide⟩,
    (register_only_two_pairs threeAccounts
      { studentRegistration with licenseKey := "MP003" } "h").2.1 (by decide),
    (register_only_two_pairs threeAccounts
      { studentRegistration with licenseKey := "STUDENT_KEY_2" } "h").2.2.1 (Or.inl rfl),
    (register_only_two_pairs threeAccounts
      { studentRegistration with licenseKey := "MP003" } "h").2.2.2.1
        (Or.inr (Or.inl rfl)) (Or.inl rfl) (by decide) (by decide),
    (register_only_two_pairs threeAccounts
      { studentRegistration with accountType := "admin" } "h").2.2.2.2
        (by decide) (by decide) (by decide) (by decide) (by decide)⟩

/-! ## Interleaved `createUser` calls -/

/-- The three steps of a call, taken in a row, do what `createUser` does. -/
theorem stepCall_thrice (users : List User) (userData : User) :
    (stepCall
        (stepCall (stepCall users ⟨userData, .start⟩).1 (stepCall users ⟨userData, .start⟩).2).1
        (stepCall (stepCall users ⟨userData, .start⟩).1 (stepCall users ⟨userData, .start⟩).2).2).1
      = afterCreateUser users userData := by
  unfold afterCreateUser createUser
  cases hf : findOne users userData.email with
  | some u => simp [stepCall, hf]
  | none =>
    cases hv : validLicenseKeys userData.accountType with
    | none => simp [stepCall, hf, hv]
    | some keys =>
      by_cases hk : userData.licenseKey ∈ keys
      · by_cases hc : countDocuments users userData.licenseKey
            < (licenseKeyLimits userData.licenseKey).getD 0
        · simp [stepCall, hf, hv, hk, hc, Nat.not_le.mpr hc]
        · simp [stepCall, hf, hv, hk, hc, Nat.not_lt.mp hc]
      · simp [stepCall, hf, hv, hk]

/-- What one step of a call can do: the call keeps its `userData`; the users
collection changes only by the insert of a call whose count was below the
limit; a call that comes out with a count was given the current count. -/
theorem stepCall_facts (users : List User) (call : Call) :
    (stepCall users call).2.userData = call.userData ∧
    ((stepCall users call).1 = users ∨
      ∃ n, call.phase = .counted n ∧
        n < (licenseKeyLimits call.userData.licenseKey).getD 0 ∧
        (stepCall users call).1 = users ++ [call.userData]) ∧
    (∀ m, (stepCall users call).2.phase = .counted m →
      (stepCall users call).1 = users ∧
        m = countDocuments users call.userData.licenseKey) := by
  obtain ⟨u, ph⟩ := call
  cases ph with
  | start =>
    simp only [stepCall]
    cases findOne users u.email <;> simp
  | emailChecked =>
    simp only [stepCall]
    cases validLicenseKeys u.accountType with
    | none => simp
    | some keys =>
      by_cases hk : u.licenseKey ∈ keys
      · simp [hk, eq_comm]
      · simp [hk]
  | counted n =>
    simp only [stepCall]
    by_cases hc : n < (licenseKeyLimits u.licenseKey).getD 0
    · simp [hc, Nat.not_le.mpr hc]
    · simp [Nat.not_lt.mp hc]
  | finished e => simp [stepCall]

/-- One step of a schedule keeps the quota of a key and the fact that only the
pending call holds a count, which is the current count of its key. -/
theorem stepAt_invariant (L : String) (N : Nat) (hL : licenseKeyLimits L = some N)
    (st : Interleaved) (pending : Option Nat) (i : Nat)
    (hcount : countDocuments st.users L ≤ N)
    (hinv : ∀ j call n, st.calls[j]? = some call → call.phase = .counted n →
      pending = some j ∧ n = countDocuments st.users call.userData.licenseKey)
    (hp : pending = none ∨ pending = some i) :
    countDocuments (stepAt st i).users L ≤ N ∧
    ∀ j call n, (stepAt st i).calls[j]? = some call → call.phase = .counted n →
      (if isCounted (stepAt st i) i then some i else none) = some j ∧
        n = countDocuments (stepAt st i).users call.userData.licenseKey := by
  have hothers : ∀ j call n, st.calls[j]? = some call → call.phase = .counted n → j = i := by
    intro j call n hj hph
    have h1 := (hinv j call n hj hph).1
    rcases hp with hp | hp
    · rw [hp] at h1; exact absurd h1 (by simp)
    · rw [hp] at h1; exact (Option.some.inj h1).symm
  cases hget : st.calls[i]? with
  | none =>
    have hstep : stepAt st i = st := by simp [stepAt, hget]
    rw [hstep]
    refine ⟨hcount, ?_⟩
    intro j call n hj hph
    have hji := hothers j call n hj hph
    subst hji
    rw [hget] at hj
    exact absurd hj (by simp)
  | some c =>
    have hstep : stepAt st i
        = { users := (stepCall st.users c).1, calls := st.calls.set i (stepCall st.users c).2 } := by
      simp [stepAt, hget]
    obtain ⟨hdata, husers, hcounted⟩ := stepCall_facts st.users c
    have hself : (st.calls.set i (stepCall st.users c).2)[i]? = some (stepCall st.users c).2 := by
      rw [List.getElem?_set_self', hget]
      rfl
    rw [hstep]
    constructor
    · rcases husers with hu | ⟨n, hph, hlt, hu⟩
      · simp only [hu]; exact hcount
      · simp only [hu]
        have hn := (hinv i c n hget hph).2
        unfold countDocuments at *
        rw [List.countP_append]
        by_cases hk : c.userData.licenseKey = L
        · rw [hk, hL] at hlt
          rw [hk] at hn
          simp only [Option.getD_some] at hlt
          simp [hk]
          omega
        · simp [hk]
          exact hcount
    · intro j call n hj hph
      simp only at hj
      by_cases hji : j = i
      · subst hji
        rw [hself] at hj
        have hcall : call = (stepCall st.users c).2 := (Option.some.inj hj).symm
        subst hcall
        have hc := hcounted n hph
        refine ⟨?_, ?_⟩
        · have : isCounted
              { users := (stepCall st.users c).1,
                calls := st.calls.set j (stepCall st.users c).2 } j = true := by
            simp only [isCounted, hself, hph]
          simp [this]
        · simp only [hc.1, hdata]
          exact hc.2
      · rw [List.getElem?_set_ne (Ne.symm hji)] at hj
        exact absurd (hothers j call n hj hph) hji

/-- Along a schedule that keeps count and insert together the quota of a key is
never passed. -/
theorem runSchedule_count_le (L : String) (N : Nat) (hL : licenseKeyLimits L = some N)
    (schedule : List Nat) :
    ∀ (pending : Option Nat) (st : Interleaved),
      countDocuments st.users L ≤ N →
      (∀ j call n, st.calls[j]? = some call → call.phase = .counted n →
        pending = some j ∧ n = countDocuments st.users call.userData.licenseKey) →
      atomicCountInsert pending st schedule = true →
      countDocuments (runSchedule st schedule).users L ≤ N := by
  induction schedule with
  | nil =>
    intro pending st hcount _ _
    exact hcount
  | cons i rest ih =>
    intro pending st hcount hinv hs
    simp only [atomicCountInsert, Bool.and_eq_true, Bool.or_eq_true, beq_iff_eq] at hs
    have hstep := stepAt_invariant L N hL st pending i hcount hinv hs.1
    unfold runSchedule
    rw [List.foldl_cons]
    exact ih _ (stepAt st i) hstep.1 hstep.2 hs.2

/-- Along a schedule in which the insert of a call directly follows its count
query, the number of accounts of a key with limit `N` stays at most `N`: the
overrun of the limit needs a step of another call between the two. -/
theorem createUser_quota_atomic (L : String) (N : Nat) (users userDatas : List User)
    (schedule : List Nat)
    (hL : licenseKeyLimits L = some N) (hN : countDocuments users L ≤ N)
    (hAtomic : atomicCountInsert none (spawnCalls users userDatas) schedule = true) :
    countDocuments (runSchedule (spawnCalls users userDatas) schedule).users L ≤ N := by
  apply runSchedule_count_le L N hL schedule none (spawnCalls users userDatas) hN _ hAtomic
  intro j call n hj hph
  simp only [spawnCalls, List.getElem?_map] at hj
  cases hu : userDatas[j]? with
  | none => rw [hu] at hj; simp at hj
  | some u =>
    rw [hu] at hj
    simp only [Option.map_some'] at hj
    have hcall := (Option.some.inj hj).symm
    rw [hcall] at hph
    simp at hph

/-- C16, the code at the failing input. Nine accounts use `STUDENT_KEY_1`, whose
maximum in `licenseKeyLimits` is 10. Two concurrent `createUser` calls with that
key both run `findOne`, then both run `countDocuments` (each is given 9), then
both run `insertOne`: eleven accounts use the key, one more than the maximum.
The same two calls run one after the other leave ten accounts. -/
theorem createUser_interleaved_overrun :
    licenseKeyLimits "STUDENT_KEY_1" = some 10 ∧
    countDocuments nineStudents "STUDENT_KEY_1" = 9 ∧
    (runSchedule (spawnCalls nineStudents twoRegistrations) [0, 1, 0, 1]).calls
      = [⟨student "s11@x.com", .counted 9⟩, ⟨student "s12@x.com", .counted 9⟩] ∧
    (runSchedule (spawnCalls nineStudents twoRegistrations) [0, 1, 0, 1, 0, 1]).calls
      = [⟨student "s11@x.com", .finished none⟩, ⟨student "s12@x.com", .finished none⟩] ∧
    countDocuments (runSchedule (spawnCalls nineStudents twoRegistrations)
      [0, 1, 0, 1, 0, 1]).users "STUDENT_KEY_1" = 11 ∧
    ¬ (countDocuments (runSchedule (spawnCalls nineStudents twoRegistrations)
      [0, 1, 0, 1, 0, 1]).users "STUDENT_KEY_1" ≤ 10) ∧
    countDocuments (afterCreateUsers nineStudents twoRegistrations) "STUDENT_KEY_1" = 10 ∧
    countDocuments (runSchedule (spawnCalls nineStudents twoRegistrations)
      [0, 0, 0, 1, 1, 1]).users "STUDENT_KEY_1" = 10 := by
  decide

end VideoShare
